import Mathlib

/-!
Verification development for the "rustlike" roguelike repository.

This file gives a shallow embedding, in Lean 4, of the parts of the
source that the specification's claims are about:

* `src/rostlaube/src/lib.rs` — the generic scene-stack engine (`Engine::run`,
  `Transition`).
* `src/src/rng.rs` — the dice-roll service, modelled by threading an explicit
  stream of raw draws (`Rng`) through every randomized operation.
* `src/src/game.rs` — the `Game` aggregate, the `Object`/component data model,
  action resolution (`move`, `attack`, `pickup`, `use_item`, ...), the
  refresh/rollover cycle, and death handling.
* `src/src/ai.rs` — the AI policy state machine (`Basic`/`Idle`/`Confused`).
* `src/src/dungeon.rs` — map generation (`make_map`, `place_objects`,
  species selection).

Machine integers (`i32`, `usize`) are modelled as `Int`/`Nat`; none of the
embedded arithmetic approaches `i32` overflow on the inputs the theorems
speak about.  `f32` appears in the source only in `Fighter::health_regen`
and in distance computations; `health_regen` is modelled as `ℚ`, and the
two distance comparisons are modelled by exact integer equivalents
(squared distance, `Nat.sqrt`), which agree with truncated `f32` square
roots for every value expressible on the 80×43 map.

The external FOV collaborator (libtcod) is abstracted as a function field
`fovFn : Location → Location → Bool` (light source ↦ queried cell ↦
visible), with the cached light source `fovSrc` updated by `update_fov`,
mirroring `FovMap::compute_fov` / `is_in_fov`.
-/

set_option maxHeartbeats 1000000

namespace Rustlike

/-! ## Geometry (`rostlaube/src/geometry.rs`) -/

/-- `Location(i32, i32)`: an absolute map position. -/
structure Location where
  x : Int
  y : Int
deriving DecidableEq, Repr

/-- `Direction(i32, i32)`: a movement delta. -/
structure Direction where
  dx : Int
  dy : Int
deriving DecidableEq, Repr

/-- `Dimension(i32, i32)`: a width × height extent. -/
structure Dimension where
  w : Int
  h : Int
deriving DecidableEq, Repr

/-! ## Randomness service (`src/rng.rs`)

The source draws from a hidden process-wide PRNG.  We model the PRNG as an
explicit stream of raw natural-number draws; each primitive consumes the
head of the stream and maps it into the requested range exactly as a
uniform draw would land somewhere in that range.  All theorems below hold
for every stream, i.e. for every possible sequence of dice outcomes. -/

/-- The modelled PRNG: a stream of raw draws (head = next draw). -/
abbrev Rng := List Nat

/-- Next raw draw (an exhausted stream keeps yielding 0). -/
def rngHead (r : Rng) : Nat := r.headD 0

/-- `rng::within(min, max)`: uniform draw in the inclusive range
`[min, max]` (the source `gen_range(min, max + 1)` panics for
`max < min`; the model is only used with `max ≥ min`). -/
def «within» (lo hi : Int) (r : Rng) : Int × Rng :=
  (lo + (rngHead r : Int) % (hi - lo + 1), r.tail)

/-- `rng::dx(x)`: a die roll in `[1, x]`, with `dx(0) = 0` drawing nothing. -/
def dx (x : Int) (r : Rng) : Int × Rng :=
  if x = 0 then (0, r) else «within» 1 x r

/-- `rng::d100()`. -/
def d100 (r : Rng) : Int × Rng := «within» 1 100 r

/-- `rng::d12()`. -/
def d12 (r : Rng) : Int × Rng := «within» 1 12 r

/-- `rng::chance(p)`: `next_f32() <= p`.  The raw draw is interpreted as
the uniform variate `(n % 1000) / 1000 : ℚ`. -/
def chance (p : ℚ) (r : Rng) : Bool × Rng :=
  (decide (((rngHead r % 1000 : Nat) : ℚ) / 1000 ≤ p), r.tail)

/-- Draws land in the requested inclusive range whenever `lo ≤ hi`. -/
theorem within_bounds (lo hi : Int) (r : Rng) (h : lo ≤ hi) :
    lo ≤ («within» lo hi r).1 ∧ («within» lo hi r).1 ≤ hi := by
  unfold «within»
  have hpos : (0 : Int) < hi - lo + 1 := by omega
  have h0 : 0 ≤ (rngHead r : Int) % (hi - lo + 1) :=
    Int.emod_nonneg _ (by omega)
  have h1 : (rngHead r : Int) % (hi - lo + 1) < hi - lo + 1 :=
    Int.emod_lt_of_pos _ hpos
  constructor <;> simp <;> omega

/-! ## Colors and messages (`game.rs`)

Only the identity of a color matters to any claim; the palette is reduced
to the named colors the embedded code mentions. -/

inductive Color where
  | black | white | red | green | blue | yellow | grey
deriving DecidableEq, Repr

/-- `type Message = (String, Color)`; `Messages` is the append-only log. -/
abbrev Messages := List (String × Color)

/-- `indirect(it, upper)`: prefix with the indefinite article; "an" exactly
when the name starts with a vowel. -/
def indirect (it : String) (upper : Bool) : String :=
  let an : Bool :=
    match it.toList with
    | c :: _ => ("aeiou".toList.contains c)
    | [] => false
  let article :=
    match upper, an with
    | true, true => "An"
    | false, true => "an"
    | true, false => "A"
    | false, false => "a"
  article ++ " " ++ it

/-- `direct(it, upper)`: prefix with the definite article. -/
def direct (it : String) (upper : Bool) : String :=
  (if upper then "The" else "the") ++ " " ++ it

/-! ## The entity data model (`game.rs`) -/

/-- A map tile. -/
structure Tile where
  blocked : Bool
  block_sight : Bool
  char : Char
  explored : Bool
  visible : Bool
deriving DecidableEq, Repr

def Tile.empty : Tile :=
  { blocked := false, block_sight := false, char := '.',
    explored := false, visible := false }

def Tile.wall : Tile :=
  { blocked := true, block_sight := true, char := '#',
    explored := false, visible := false }

/-- `type Map = Vec<Vec<Tile>>`, indexed `map[x][y]`. -/
abbrev MapT := List (List Tile)

/-- `DeathCallback`: which death behavior a fighter carries. -/
inductive DeathCallback where
  | Player
  | Monster
deriving DecidableEq, Repr

/-- The `Fighter` component.  `health_regen : f32` is modelled as `ℚ`. -/
structure Fighter where
  max_health : Int
  health : Int
  defense : Int
  power : Int
  on_death : DeathCallback
  health_regen : ℚ
deriving DecidableEq, Repr

/-- `Fighter::take_damage`. -/
def Fighter.take_damage (f : Fighter) (damage : Int) : Fighter :=
  { f with health := f.health - damage }

/-- `Fighter::heal`: clamped at `max_health`. -/
def Fighter.heal (f : Fighter) (amount : Int) : Fighter :=
  { f with health := min (f.health + amount) f.max_health }

/-- The `Noise` component. -/
structure Noise where
  bark : String
  mumble : String
deriving DecidableEq, Repr

/-- The `Movement` component. -/
structure Movement where
  speed : Int
deriving DecidableEq, Repr

/-- The consumable effect tag. -/
inductive Item where
  | Heal
  | Lightning
  | Confusion
deriving DecidableEq, Repr

/-- The AI behavior state (`ai.rs`).  `Confused` boxes its previous state. -/
inductive Ai where
  | Basic
  | Idle
  | Confused (previous : Ai) (num_turns : Int)
deriving DecidableEq, Repr

/-- A game entity (`Object`): the player, a monster, or an item. -/
structure Object where
  loc : Location
  char : Char
  color : Color
  name : String
  blocks : Bool
  visible : Bool
  seen : Bool
  alive : Bool
  movement : Option Movement
  fighter : Option Fighter
  ai : Option Ai
  noise : Option Noise
  item : Option Item
deriving DecidableEq, Repr

/-- `Object::new()` on top of `Default` (char '`', name "it"). -/
def Object.new : Object :=
  { loc := ⟨0, 0⟩, char := Char.ofNat 96, color := Color.black, name := "it",
    blocks := false, visible := false, seen := false, alive := false,
    movement := none, fighter := none, ai := none, noise := none,
    item := none }

instance : Inhabited Object := ⟨Object.new⟩

/-- `Object::player`. -/
def Object.player (loc : Location) (name : String) : Object :=
  { Object.new with
    loc := loc, name := name, char := '@', color := Color.yellow,
    blocks := true, alive := true, visible := true, seen := true,
    movement := some ⟨100⟩,
    fighter := some
      { max_health := 30, health := 30, defense := 2, power := 5,
        on_death := DeathCallback.Player, health_regen := (1 : ℚ) / 2 } }

/-- `Object::orc`. -/
def Object.orc (loc : Location) : Object :=
  { Object.new with
    loc := loc, name := "orc", char := 'o', color := Color.green,
    blocks := true, alive := true,
    ai := some Ai.Basic,
    movement := some ⟨90⟩,
    fighter := some
      { max_health := 10, health := 10, defense := 0, power := 3,
        on_death := DeathCallback.Monster, health_regen := (1 : ℚ) / 10 },
    noise := some ⟨"shout", "mumble"⟩ }

/-- `Object::troll`. -/
def Object.troll (loc : Location) : Object :=
  { Object.new with
    loc := loc, name := "troll", char := 'T', color := Color.green,
    blocks := true, alive := true,
    ai := some Ai.Basic,
    movement := some ⟨80⟩,
    fighter := some
      { max_health := 16, health := 16, defense := 1, power := 4,
        on_death := DeathCallback.Monster, health_regen := (1 : ℚ) / 2 },
    noise := some ⟨"roar", "growl"⟩ }

/-- `Object::ogre`. -/
def Object.ogre (loc : Location) : Object :=
  { Object.new with
    loc := loc, name := "ogre", char := 'O', color := Color.yellow,
    blocks := true, alive := true,
    ai := some Ai.Basic,
    movement := some ⟨70⟩,
    fighter := some
      { max_health := 25, health := 25, defense := 2, power := 8,
        on_death := DeathCallback.Monster, health_regen := (1 : ℚ) / 5 },
    noise := some ⟨"bellow", "burp"⟩ }

/-- `Object::potion`. -/
def Object.potion (loc : Location) (item : Item) (name : String) : Object :=
  { Object.new with
    loc := loc, name := name, char := '!', color := Color.blue,
    item := some item }

/-- `Object::scroll`. -/
def Object.scroll (loc : Location) (item : Item) (name : String) : Object :=
  { Object.new with
    loc := loc, name := name, char := '?', color := Color.blue,
    item := some item }

/-- Indexing a `Vec<Object>` (out of range panics in Rust; the theorems
that depend on an entry always hypothesize it exists). -/
def getObj (objects : List Object) (id : Nat) : Object :=
  objects.getD id Object.new

/-! ## Actions (`game.rs`) -/

inductive Action where
  | Move (id : Nat) (direction : Direction)
  | Attack (id target : Nat)
  | PickUp (id target : Nat)
  | UseItem (id item : Nat)
  | Bark (id : Nat)
  | Mumble (id : Nat)
  | Wait (id : Nat)
  | Nothing
deriving DecidableEq, Repr

/-- `Action::took_turn`. -/
def Action.took_turn : Action → Bool
  | .Move _ _ => true
  | .Attack _ _ => true
  | .PickUp _ _ => true
  | .Bark _ => true
  | .Mumble _ => true
  | .Wait _ => true
  | .UseItem _ _ => false
  | .Nothing => false

/-- The entity an action is attributed to (every variant but `Nothing`
carries its actor id as first payload). -/
def Action.actorId : Action → Option Nat
  | .Move id _ => some id
  | .Attack id _ => some id
  | .PickUp id _ => some id
  | .UseItem id _ => some id
  | .Bark id => some id
  | .Mumble id => some id
  | .Wait id => some id
  | .Nothing => none

/-! ## Game constants (`game.rs`) -/

/-- Index of the player in the vector of objects (`lib.rs`). -/
def PLAYER : Nat := 0

def TORCH_RADIUS : Int := 10
def HEAL_AMOUNT : Int := 10
def LIGHTNING_RANGE : Int := 3
def LIGHTNING_DAMAGE : Int := 10
def CONFUSE_RANGE : Int := 5
def CONFUSE_NUM_TURNS : Int := 5

/-! ## The `Game` aggregate (`game.rs`)

`fov : FovMap` together with `compute_fov`/`is_in_fov` is an external
collaborator; it is abstracted as a fixed visibility oracle `fovFn`
(light source ↦ queried cell ↦ visible) plus the cached light source
`fovSrc` that `update_fov` recomputes from the player's location. -/

structure Game where
  map : MapT
  objects : List Object
  turn : Int
  turns : List (List Action × List Action)
  messages : Messages
  inventory : List Object
  fovFn : Location → Location → Bool
  fovSrc : Location
  map_dimensions : Dimension
  player_turn : List Action
  rng : Rng

/-- `Game::visible`: query the cached FOV. -/
def Game.visible (g : Game) (loc : Location) : Bool := g.fovFn g.fovSrc loc

/-- Replace the object at index `id` (in-place mutation of `objects[id]`). -/
def Game.setObj (g : Game) (id : Nat) (o : Object) : Game :=
  { g with objects := g.objects.set id o }

/-- `Game::update_fov`: recompute the FOV from the player's location. -/
def Game.update_fov (g : Game) : Game :=
  { g with fovSrc := (getObj g.objects PLAYER).loc }

/-- `Game::update_map`: newly visible tiles become explored+visible,
all others become invisible (`explored` is never reset).  The source
iterates `0..width × 0..height` of `map_dimensions`, which always match
the dimensions of the tile grid. -/
def Game.update_map (g : Game) : Game :=
  { g with map := g.map.mapIdx fun x col => col.mapIdx fun y tile =>
      if g.visible ⟨(x : Int), (y : Int)⟩ then
        { tile with explored := true, visible := true }
      else { tile with visible := false } }

/-- `kill_player`: death behavior of the player.  Keeps the `Fighter`
component in place. -/
def kill_player (player : Object) : Object × Messages :=
  ({ player with alive := false, char := '%', color := Color.red },
   [("You die!", Color.red)])

/-- `kill_monster`: death behavior of a monster.  Drops the `Fighter`
and AI components, stops blocking, renames to remains. -/
def kill_monster (monster : Object) : Object × Messages :=
  ({ monster with
      alive := false, char := '%', color := Color.red,
      blocks := false, fighter := none, ai := none,
      name := "Remains of " ++ monster.name },
   [(direct monster.name true ++ " dies.", Color.red)])

/-- `DeathCallback::call`. -/
def DeathCallback.call : DeathCallback → Object → Object × Messages
  | .Player, o => kill_player o
  | .Monster, o => kill_monster o

/-- `regenerate`: passive regeneration.  `health_regen ≤ 1.0` is a
per-tick probability of +1 HP; larger values are a flat amount
(the `as i32` cast truncates, which for positive values is the floor). -/
def regen_amount (f : Fighter) (r : Rng) : Int × Rng :=
  if f.health_regen ≤ 1 then
    ((if (chance f.health_regen r).1 then (1 : Int) else 0),
     (chance f.health_regen r).2)
  else (⌊f.health_regen⌋, r)

def regenerate (o : Object) (r : Rng) : Object × Rng :=
  match o.fighter with
  | some f =>
    ({ o with fighter := some (f.heal (regen_amount f r).1) },
     (regen_amount f r).2)
  | none => (o, r)

/-- The visibility/`seen` bookkeeping of the `Game::update_objects` loop
body: a "You see ..." message fires only on the unseen → seen edge. -/
def visibility_step (vis : Bool) (o : Object) : Object × Messages :=
  if vis then
    if o.seen then ({ o with visible := true }, [])
    else ({ o with visible := true, seen := true },
          [("You see " ++ indirect o.name false, Color.white)])
  else ({ o with visible := false }, [])

/-- The death handling of the `Game::update_objects` loop body: the death
behavior fires whenever a `Fighter` component with `health ≤ 0` is still
present (there is no `alive` guard in the source). -/
def death_step (o : Object) : Object × Messages :=
  match o.fighter with
  | some f => if f.health ≤ 0 then f.on_death.call o else (o, [])
  | none => (o, [])

/-- The regeneration step of the `Game::update_objects` loop body (only
on a full turn, only for living objects). -/
def regen_step (full_turn : Bool) (o : Object) (r : Rng) : Object × Rng :=
  if full_turn && o.alive then regenerate o r else (o, r)

/-- The body of the `Game::update_objects` loop for one object:
visibility/seen bookkeeping, then death handling, then regeneration. -/
def process_object (vis : Bool) (full_turn : Bool) (o : Object) (r : Rng) :
    Object × Messages × Rng :=
  let s1 := visibility_step vis o
  let s2 := death_step s1.1
  let s3 := regen_step full_turn s2.1 r
  (s3.1, s1.2 ++ s2.2, s3.2)

/-- The `Game::update_objects` loop over all indices in order; messages
are collected in iteration order and appended to the log once at the
end. -/
def processObjects (vis : Location → Bool) (full_turn : Bool) :
    List Object → Rng → List Object × Messages × Rng
  | [], r => ([], [], r)
  | o :: os, r =>
    let (o1, msgs1, r1) := process_object (vis o.loc) full_turn o r
    let (os2, msgs2, r2) := processObjects vis full_turn os r1
    (o1 :: os2, msgs1 ++ msgs2, r2)

/-- `Game::update_objects`. -/
def Game.update_objects (g : Game) (full_turn : Bool) : Game :=
  let res := processObjects (fun loc => g.visible loc) full_turn g.objects g.rng
  { g with objects := res.1, messages := g.messages ++ res.2.1, rng := res.2.2 }

/-- `Game::refresh`: FOV, tile visibility, then object bookkeeping
(without regeneration). -/
def Game.refresh (g : Game) : Game :=
  (g.update_fov.update_map).update_objects false

/-- `Game::turn` (named `turnCommit` since `turn` is the field name):
append the tick to history, advance the counter, clear the buffer. -/
def Game.turnCommit (g : Game) (player ai : List Action) : Game :=
  { g with
    turns := g.turns ++ [(player, ai)], turn := g.turn + 1,
    player_turn := [] }

/-- `Game::rollover`: the end-of-tick refresh (with regeneration)
followed by committing the tick. -/
def Game.rollover (g : Game) (player ai : List Action) : Game :=
  ((g.update_fov.update_map).update_objects true).turnCommit player ai

/-! ## Movement and collision (`game.rs`) -/

/-- `destination`. -/
def destination (location : Location) (direction : Direction) : Location :=
  ⟨location.x + direction.dx, location.y + direction.dy⟩

/-- `object_blocks`: some blocking object occupies `loc`. -/
def object_blocks (loc : Location) (objects : List Object) : Bool :=
  (objects.filter fun o => o.blocks).any fun o => o.loc == loc

/-- `structure_blocks`: `map[x][y].blocked` (out-of-bounds indexing
panics in Rust; the model reads it as blocked). -/
def structure_blocks (loc : Location) (map : MapT) : Bool :=
  if loc.x < 0 ∨ loc.y < 0 then true
  else
    match map[loc.x.toNat]? with
    | some col =>
      match col[loc.y.toNat]? with
      | some tile => tile.blocked
      | none => true
    | none => true

/-- `move_by`: take the step when neither a tile nor an object blocks the
destination; report whether the move happened. -/
def move_by (id : Nat) (direction : Direction) (map : MapT)
    (objects : List Object) : Bool × List Object :=
  let dest := destination (getObj objects id).loc direction
  if !(structure_blocks dest map || object_blocks dest objects) then
    (true, objects.set id { getObj objects id with loc := dest })
  else (false, objects)

/-- `move_object`: gated on the per-move speed check; straight move, then
the horizontal component, then the vertical component (`||` short
circuits), message only when the check passed and all three were
blocked. -/
def move_object (id : Nat) (direction : Direction) (map : MapT)
    (objects : List Object) (r : Rng) : Messages × List Object × Rng :=
  match (getObj objects id).movement with
  | none => ([], objects, r)
  | some m =>
    let (roll, r') := d100 r
    if m.speed ≥ roll then
      let (ok1, objs1) := move_by id direction map objects
      if ok1 then ([], objs1, r')
      else
        let (ok2, objs2) := move_by id ⟨direction.dx, 0⟩ map objs1
        if ok2 then ([], objs2, r')
        else
          let (ok3, objs3) := move_by id ⟨0, direction.dy⟩ map objs2
          if ok3 then ([], objs3, r')
          else ([("The way is blocked!", Color.white)], objs3, r')
    else ([], objects, r')

/-! ## Distance and targeting (`game.rs`)

`distance` returns `sqrt(dx² + dy²) : f32`.  The two uses are modelled
exactly: `distance ≥ 2.0` as `distSq ≥ 4`, and the `as i32` truncation
as `Nat.sqrt` of the squared distance (these agree with the `f32`
computation for every pair of cells of the 80×43 map, where the squared
distance stays far below `2^24`). -/

def distSq (a b : Location) : Int :=
  (b.x - a.x) ^ 2 + (b.y - a.y) ^ 2

/-- `distance(a, b) as i32`. -/
def distanceI (a b : Location) : Int :=
  (Nat.sqrt (distSq a b).toNat : Nat)

/-- `direction(a, b)`: signum per axis. -/
def direction (a b : Location) : Direction :=
  ⟨if b.x - a.x < 0 then -1 else if b.x - a.x > 0 then 1 else 0,
   if b.y - a.y < 0 then -1 else if b.y - a.y > 0 then 1 else 0⟩

/-- Stable insertion of `x` after every earlier element with a strictly
smaller key: models the stability of `Vec::sort_by_key`. -/
def insertByKey (k : Int × Nat → Int) (x : Int × Nat) :
    List (Int × Nat) → List (Int × Nat)
  | [] => [x]
  | y :: ys => if k y < k x then y :: insertByKey k x ys else x :: y :: ys

/-- Stable sort ascending by key: models `Vec::sort_by_key`. -/
def sortByKey (k : Int × Nat → Int) : List (Int × Nat) → List (Int × Nat)
  | [] => []
  | x :: xs => insertByKey k x (sortByKey k xs)

/-- `fighters_by_distance`: all fighters other than `id` within `range`,
sorted by descending distance (sort key `-d`). -/
def fighters_by_distance (id : Nat) (objects : List Object) (range : Int) :
    List Nat :=
  let loc := (getObj objects id).loc
  let in_range :=
    ((((objects.enum.filter fun p => p.1 != id).filter
        fun p => p.2.fighter.isSome).map
        fun p => (distanceI loc p.2.loc, p.1)).filter
        fun p => decide (p.1 ≤ range))
  (sortByKey (fun p => -p.1) in_range).map fun p => p.2

/-- `closest_fighter`: `Vec::pop` of the descending list = the closest. -/
def closest_fighter (id : Nat) (objects : List Object) (range : Int) :
    Option Nat :=
  (fighters_by_distance id objects range).getLast?

/-! ## Action resolution (`game.rs`) -/

/-- `attack`: roll `dx(power)` against `dx(defense)`; damage is applied
only when positive. -/
def attack (attacker defender : Nat) (objects : List Object) (r : Rng) :
    Messages × List Object × Rng :=
  let msg :=
    if attacker = PLAYER then
      "You attack " ++ direct (getObj objects defender).name false
    else if defender = PLAYER then
      direct (getObj objects attacker).name true ++ " attacks you"
    else
      direct (getObj objects attacker).name true ++ " attacks " ++
        direct (getObj objects defender).name false
  let dmg : Int × Rng :=
    match (getObj objects attacker).fighter with
    | some fa =>
      let (ad, r1) := dx fa.power r
      match (getObj objects defender).fighter with
      | some fd =>
        let (dd, r2) := dx fd.defense r1
        (ad - dd, r2)
      | none => ((0 : Int), r1)
    | none => ((0 : Int), r)
  let damage := dmg.1
  let r' := dmg.2
  match (getObj objects defender).fighter with
  | some fd =>
    if damage > 0 then
      ([(msg ++ " for " ++ toString damage ++ " damage!", Color.white)],
       objects.set defender
         { getObj objects defender with fighter := some (fd.take_damage damage) },
       r')
    else
      ([(msg ++ (if attacker = PLAYER then " but do no damage."
                 else " but does no damage."), Color.white)],
       objects, r')
  | none => ([("Cannot attack that!", Color.white)], objects, r')

/-- `Vec::swap_remove(i)`: replace slot `i` with the last element and pop. -/
def swapRemove {α : Type} (l : List α) (i : Nat) : List α :=
  match l.getLast? with
  | some last => (l.set i last).dropLast
  | none => l

/-- `pickup_item`: capacity 26; on success the item entity is
swap-removed from the world and pushed into the inventory. -/
def pickup_item (actor item_id : Nat) (objects : List Object)
    (inventory : List Object) : Messages × List Object × List Object :=
  if inventory.length ≥ 26 then
    ([("Inventory full", Color.white)], objects, inventory)
  else
    let item := getObj objects item_id
    let objects' := swapRemove objects item_id
    let msg :=
      if actor = PLAYER then "You pick up " ++ indirect item.name false ++ "."
      else direct (getObj objects' actor).name true ++ " picks up " ++
        indirect item.name false ++ "."
    ([(msg, Color.white)], objects', inventory ++ [item])

inductive UseResult where
  | UsedUp
  | Cancelled
deriving DecidableEq, Repr

/-- `cast_heal`: cancelled at full health, otherwise heal by
`HEAL_AMOUNT` (clamped by `Fighter::heal`). -/
def cast_heal (id : Nat) (_item_id : Nat) (g : Game) :
    UseResult × Messages × Game :=
  match (getObj g.objects id).fighter with
  | some f =>
    if f.health = f.max_health then
      (.Cancelled, [("Already at full health!", Color.white)], g)
    else
      (.UsedUp, [("Healed!", Color.white)],
       g.setObj id { getObj g.objects id with fighter := some (f.heal HEAL_AMOUNT) })
  | none => (.Cancelled, [("Only fighters can drink!", Color.white)], g)

/-- `cast_lightning`: strike the closest fighter within range.  The
source `expect`s the target to be a fighter, which `closest_fighter`
guarantees; the impossible branch leaves the game unchanged. -/
def cast_lightning (id : Nat) (_item_id : Nat) (g : Game) :
    UseResult × Messages × Game :=
  match closest_fighter id g.objects LIGHTNING_RANGE with
  | some target =>
    let g' :=
      match (getObj g.objects target).fighter with
      | some f =>
        g.setObj target
          { getObj g.objects target with
            fighter := some (f.take_damage LIGHTNING_DAMAGE) }
      | none => g
    (.UsedUp,
     [("You zap " ++ direct (getObj g'.objects target).name false ++ " ",
       Color.white)], g')
  | none =>
    (.Cancelled, [("There are no targets in range.", Color.white)], g)

/-- `cast_confusion`: wrap the closest fighter's AI state.  The source
`expect`s the target to have an AI; the impossible branch leaves the
game unchanged. -/
def cast_confusion (id : Nat) (_item_id : Nat) (g : Game) :
    UseResult × Messages × Game :=
  match closest_fighter id g.objects CONFUSE_RANGE with
  | some target =>
    let g' :=
      match (getObj g.objects target).ai with
      | some ai =>
        g.setObj target
          { getObj g.objects target with
            ai := some (Ai.Confused ai CONFUSE_NUM_TURNS) }
      | none => g
    (.UsedUp,
     [(direct (getObj g'.objects target).name true ++ " looks confused.",
       Color.white)], g')
  | none =>
    (.Cancelled, [("There are no targets in range.", Color.white)], g)

/-- `use_item`: dispatch on the effect tag; `UsedUp` consumes the
inventory slot (`Vec::remove`, order preserving), `Cancelled` keeps it. -/
def use_item (id item_id : Nat) (g : Game) : Messages × Game :=
  match (getObj g.inventory item_id).item with
  | some i =>
    let f :=
      match i with
      | .Heal => cast_heal
      | .Lightning => cast_lightning
      | .Confusion => cast_confusion
    match f id item_id g with
    | (.UsedUp, messages, g') =>
      (messages, { g' with inventory := g'.inventory.eraseIdx item_id })
    | (.Cancelled, messages, g') => (messages, g')
  | none => ([], g)

/-- `bark`. -/
def bark (id : Nat) (objects : List Object) : Messages :=
  match (getObj objects id).noise with
  | some n =>
    [(indirect (getObj objects id).name true ++ " " ++ n.bark ++ "s.",
      Color.white)]
  | none => []

/-- `mumble`. -/
def mumble (id : Nat) (objects : List Object) : Messages :=
  match (getObj objects id).noise with
  | some n =>
    [(indirect (getObj objects id).name true ++ " " ++ n.mumble ++ "s.",
      Color.white)]
  | none => []

/-- One arm of the `Game::play` match: resolve a single action and append
its messages. -/
def Game.playAction (g : Game) (action : Action) : Game :=
  match action with
  | .Move id dir =>
    let res := move_object id dir g.map g.objects g.rng
    { g with objects := res.2.1, rng := res.2.2, messages := g.messages ++ res.1 }
  | .Attack id target =>
    let res := attack id target g.objects g.rng
    { g with objects := res.2.1, rng := res.2.2, messages := g.messages ++ res.1 }
  | .PickUp id target =>
    let res := pickup_item id target g.objects g.inventory
    { g with
      objects := res.2.1, inventory := res.2.2,
      messages := g.messages ++ res.1 }
  | .Bark id => { g with messages := g.messages ++ bark id g.objects }
  | .Mumble id => { g with messages := g.messages ++ mumble id g.objects }
  | .Wait _ => g
  | .UseItem id item =>
    let res := use_item id item g
    { res.2 with messages := res.2.messages ++ res.1 }
  | .Nothing => g

/-- `Game::play`: resolve the actions of a turn strictly in order. -/
def Game.play (g : Game) (turn : List Action) : Game :=
  turn.foldl Game.playAction g

/-! ## The AI policy (`ai.rs`) -/

/-- `confused`: ignores the game state entirely, emits no action,
decrements the counter, and unwraps the previous state once the counter
has reached 0. -/
def confused (_id : Nat) (_g : Game) (previous : Ai) (num_turns : Int)
    (r : Rng) : List Action × Ai × Rng :=
  ([],
   if num_turns ≥ 1 then Ai.Confused previous (num_turns - 1) else previous,
   r)

/-- `basic`: hunt the player while visible (`distance ≥ 2.0` is the exact
integer comparison `distSq ≥ 4`), attack when adjacent and the player
still has health, drop to `Idle` when out of sight. -/
def basic (id : Nat) (g : Game) (r : Rng) : List Action × Ai × Rng :=
  let object := getObj g.objects id
  let player := getObj g.objects PLAYER
  if g.visible object.loc then
    if distSq object.loc player.loc ≥ 4 then
      let (roll, r') := d12 r
      ((if roll > 11 then [Action.Bark id] else []) ++
        [Action.Move id (direction object.loc player.loc)],
       Ai.Basic, r')
    else if (match player.fighter with
             | some f => decide (f.health > 0)
             | none => false) then
      ([Action.Attack id PLAYER], Ai.Basic, r)
    else ([], Ai.Basic, r)
  else ([], Ai.Idle, r)

/-- `idle`: wake to `Basic` when the player becomes visible, otherwise a
1-in-1000 chance to mumble. -/
def idle (id : Nat) (g : Game) (r : Rng) : List Action × Ai × Rng :=
  let object := getObj g.objects id
  if g.visible object.loc then ([], Ai.Basic, r)
  else
    let (roll, r') := dx 1000 r
    if roll > 999 then ([Action.Mumble id], Ai.Idle, r')
    else ([], Ai.Idle, r')

/-- `ai::turn`: dispatch on the behavior state. -/
def Ai.turn (ai : Ai) (id : Nat) (g : Game) (r : Rng) :
    List Action × Ai × Rng :=
  match ai with
  | .Basic => basic id g r
  | .Idle => idle id g r
  | .Confused previous num_turns => confused id g previous num_turns r

/-- The body of the `Game::ai_turns` loop for one id: `take()` the AI
state, run the policy, store the replacement state. -/
def aiOne (g : Game) (id : Nat) : List Action × Game :=
  match (getObj g.objects id).ai with
  | none => ([], g)
  | some ai =>
    let g1 := g.setObj id { getObj g.objects id with ai := none }
    let res := ai.turn id g1 g1.rng
    let g2 := { g1 with rng := res.2.2 }
    (res.1, g2.setObj id { getObj g2.objects id with ai := some res.2.1 })

/-- The `Game::ai_turns` loop over a list of ids, concatenating the
produced actions in iteration order. -/
def aiLoop (g : Game) : List Nat → List Action × Game
  | [] => ([], g)
  | id :: rest =>
    let res1 := aiOne g id
    let res2 := aiLoop res1.2 rest
    (res1.1 ++ res2.1, res2.2)

/-- `Game::ai_turns`: iterate ids `PLAYER+1 .. objects.len()` in order. -/
def Game.ai_turns (g : Game) : List Action × Game :=
  aiLoop g (List.range' (PLAYER + 1) (g.objects.length - 1))

/-- `Game::update`: resolve the player action, refresh, and — when the
action consumed a turn — compute the AI turn, resolve it, and roll the
tick over into history. -/
def Game.update (g : Game) (action : Action) : Game :=
  let g1 := { g with player_turn := g.player_turn ++ [action] }
  let g2 := (g1.play [action]).refresh
  if action.took_turn then
    let res := g2.ai_turns
    let g4 := res.2.play res.1
    g4.rollover g4.player_turn res.1
  else g2

/-! ## The scene-stack engine (`rostlaube/src/lib.rs`)

The scene stack is a `Vec` pushed/popped at its end; it is modelled as a
`List` whose HEAD is the top of the stack.  One loop iteration pops the
top scene, renders it (no model state), waits for an event, lets the
scene interpret the event into an action and apply it to the world,
producing a `Transition`; rendering and the platform events that skip an
iteration (fullscreen toggle, Ctrl-C) are collaborator concerns outside
the model, so an iteration is abstracted as a `step` oracle
`scene → world → (updated scene, updated world, transition)`. -/

inductive Transition (S : Type) where
  | Exit
  | Continue
  | Next (s : S)
  | Replace (s : S)
deriving Repr

/-- The effect of one transition on the stack, after the current scene
has been popped: `scene` is the (already updated) current scene and
`stack` the rest of the stack. -/
def applyTransition {S : Type} (scene : S) (stack : List S) :
    Transition S → List S
  | .Continue => scene :: stack
  | .Exit => stack
  | .Next s => s :: scene :: stack
  | .Replace s => s :: stack

/-- `Engine::run` (fuel-indexed): loop until the stack empties, then
return ownership of the world to the caller. -/
def Engine.run {S W : Type} (step : S → W → S × W × Transition S) :
    Nat → W → List S → W
  | 0, world, _ => world
  | _ + 1, world, [] => world
  | fuel + 1, world, scene :: rest =>
    let res := step scene world
    Engine.run step fuel res.2.1 (applyTransition res.1 rest res.2.2)

/-! ## Dungeon generation (`dungeon.rs`) -/

/-- `rand::random::<bool>()`: the tunnel-direction coin toss. -/
def randomBool (r : Rng) : Bool × Rng :=
  (rngHead r % 2 == 0, r.tail)

/-- A room rectangle. -/
structure Rect where
  x1 : Int
  y1 : Int
  x2 : Int
  y2 : Int
deriving DecidableEq, Repr

def Rect.new (x y w h : Int) : Rect := ⟨x, y, x + w, y + h⟩

/-- `Rect::center` (`i32` division truncates toward zero). -/
def Rect.center (r : Rect) : Int × Int :=
  (Int.tdiv (r.x1 + r.x2) 2, Int.tdiv (r.y1 + r.y2) 2)

/-- `Rect::intersects_with` (inclusive-edge test). -/
def Rect.intersects_with (r other : Rect) : Bool :=
  decide (r.x1 ≤ other.x2) && decide (r.x2 ≥ other.x1) &&
  decide (r.y1 ≤ other.y2) && decide (r.y2 ≥ other.y1)

/-- Write one tile of the grid (in-bounds in every reachable use). -/
def setTile (m : MapT) (x y : Int) (t : Tile) : MapT :=
  if x < 0 ∨ y < 0 then m
  else m.set x.toNat ((m.getD x.toNat []).set y.toNat t)

/-- The integer range `lo..hi` (empty when `hi ≤ lo`). -/
def intRange (lo hi : Int) : List Int :=
  (List.range (hi - lo).toNat).map fun i => lo + (i : Int)

/-- `create_room`: carve the interior, leaving a 1-cell wall border. -/
def create_room (room : Rect) (m : MapT) : MapT :=
  (intRange (room.x1 + 1) room.x2).foldl
    (fun m x =>
      (intRange (room.y1 + 1) room.y2).foldl
        (fun m y => setTile m x y Tile.empty) m)
    m

/-- `create_h_tunnel`. -/
def create_h_tunnel (x1 x2 y : Int) (m : MapT) : MapT :=
  (intRange (min x1 x2) (max x1 x2 + 1)).foldl
    (fun m x => setTile m x y Tile.empty) m

/-- `create_v_tunnel`. -/
def create_v_tunnel (y1 y2 x : Int) (m : MapT) : MapT :=
  (intRange (min y1 y2) (max y1 y2 + 1)).foldl
    (fun m y => setTile m x y Tile.empty) m

/-- `loc_in_room`: a random interior cell. -/
def loc_in_room (room : Rect) (r : Rng) : Location × Rng :=
  let rx := «within» (room.x1 + 1) (room.x2 - 1) r
  let ry := «within» (room.y1 + 1) (room.y2 - 1) rx.2
  (⟨rx.1, ry.1⟩, ry.2)

/-- `create_monster`: species thresholds over one d100 roll. -/
def create_monster (room : Rect) (r : Rng) : Object × Rng :=
  let lr := loc_in_room room r
  let dr := d100 lr.2
  ((if dr.1 < 50 then Object.orc lr.1
    else if dr.1 < 80 then Object.troll lr.1
    else Object.ogre lr.1), dr.2)

/-- `create_item`: item thresholds over one d100 roll. -/
def create_item (room : Rect) (r : Rng) : Object × Rng :=
  let lr := loc_in_room room r
  let dr := d100 lr.2
  ((if dr.1 < 50 then Object.potion lr.1 Item.Heal "healing potion"
    else Object.scroll lr.1 Item.Lightning "lightning bolt"), dr.2)

/-- The monster half of `place_objects`: skip a monster whose sampled
cell is already occupied by a blocking entity. -/
def place_monsters (room : Rect) (objects : List Object) :
    Nat → Rng → List Object × Rng
  | 0, r => (objects, r)
  | n + 1, r =>
    let mr := create_monster room r
    let objects' :=
      if object_blocks mr.1.loc objects then objects else objects ++ [mr.1]
    place_monsters room objects' n mr.2

/-- The item half of `place_objects`: items always placed (may stack). -/
def place_items (room : Rect) (objects : List Object) :
    Nat → Rng → List Object × Rng
  | 0, r => (objects, r)
  | n + 1, r =>
    let ir := create_item room r
    place_items room (objects ++ [ir.1]) n ir.2

/-- `place_objects`: a random count of monsters, then of items. -/
def place_objects (room : Rect) (objects : List Object)
    (max_room_monsters max_room_items : Int) (r : Rng) :
    List Object × Rng :=
  let nm := «within» 0 max_room_monsters r
  let pm := place_monsters room objects nm.1.toNat nm.2
  let ni := «within» 0 max_room_items pm.2
  place_items room pm.1 ni.1.toNat ni.2

/-- The generation loop state of `make_map`. -/
structure GenState where
  map : MapT
  rooms : List Rect
  objects : List Object
  rng : Rng

/-- One iteration of the `make_map` room loop. -/
def make_map_step (map_dimension room_dimensions : Dimension)
    (max_room_monsters max_room_items : Int) (st : GenState) : GenState :=
  let rw := «within» room_dimensions.w room_dimensions.h st.rng
  let rh := «within» room_dimensions.w room_dimensions.h rw.2
  let rx := «within» 0 (map_dimension.w - rw.1 - 1) rh.2
  let ry := «within» 0 (map_dimension.h - rh.1 - 1) rx.2
  let room := Rect.new rx.1 ry.1 rw.1 rh.1
  if st.rooms.any (fun other => room.intersects_with other) then
    { st with rng := ry.2 }
  else
    let map1 := create_room room st.map
    let c := room.center
    if st.rooms.isEmpty then
      { map := map1, rooms := st.rooms ++ [room],
        objects := st.objects.set PLAYER
          { getObj st.objects PLAYER with loc := ⟨c.1, c.2⟩ },
        rng := ry.2 }
    else
      let po := place_objects room st.objects max_room_monsters
        max_room_items ry.2
      let pc := ((st.rooms.getLast?).getD room).center
      let coin := randomBool po.2
      let map2 :=
        if coin.1 then
          create_v_tunnel pc.2 c.2 c.1 (create_h_tunnel pc.1 c.1 pc.2 map1)
        else
          create_h_tunnel pc.1 c.1 c.2 (create_v_tunnel pc.2 c.2 pc.1 map1)
      { map := map2, rooms := st.rooms ++ [room], objects := po.1,
        rng := coin.2 }

/-- The `make_map` room loop, `max_rooms` iterations. -/
def make_map_loop (map_dimension room_dimensions : Dimension)
    (max_room_monsters max_room_items : Int) :
    Nat → GenState → GenState
  | 0, st => st
  | n + 1, st =>
    make_map_loop map_dimension room_dimensions max_room_monsters
      max_room_items n
      (make_map_step map_dimension room_dimensions max_room_monsters
        max_room_items st)

/-- `make_map` with its internal state exposed (the accepted rooms, in
acceptance order). -/
def make_map_full (objects : List Object)
    (map_dimension room_dimensions : Dimension)
    (max_rooms max_room_monsters max_room_items : Int) (r : Rng) :
    GenState :=
  make_map_loop map_dimension room_dimensions max_room_monsters
    max_room_items max_rooms.toNat
    { map := List.replicate map_dimension.w.toNat
        (List.replicate map_dimension.h.toNat Tile.wall),
      rooms := [], objects := objects, rng := r }

/-- `dungeon::make_map`. -/
def make_map (objects : List Object)
    (map_dimension room_dimensions : Dimension)
    (max_rooms max_room_monsters max_room_items : Int) (r : Rng) :
    MapT × List Object × Rng :=
  let st := make_map_full objects map_dimension room_dimensions max_rooms
    max_room_monsters max_room_items r
  (st.map, st.objects, st.rng)

/-- `grab`: the first object at the actor's location with an item
component, if any. -/
def grab (id : Nat) (objects : List Object) : Option Action × Messages :=
  match objects.findIdx? (fun o =>
      (o.loc == (getObj objects id).loc) && o.item.isSome) with
  | some item_id => (some (Action.PickUp id item_id), [])
  | none => (none, [("There is nothing here to pick up.", Color.white)])

/-! ## Helper lemmas -/

theorem getObj_eq {objects : List Object} {i : Nat} {o : Object}
    (h : objects[i]? = some o) : getObj objects i = o := by
  simp [getObj, List.getD_eq_getElem?_getD, h]

/-- Concatenation of per-element action lists, in list order. -/
def concatMap {α β : Type} (f : α → List β) : List α → List β
  | [] => []
  | x :: xs => f x ++ concatMap f xs

theorem concatMap_congr {α β : Type} {f g : α → List β} :
    ∀ {l : List α}, (∀ x ∈ l, f x = g x) → concatMap f l = concatMap g l
  | [], _ => rfl
  | x :: xs, h => by
    simp only [concatMap, h x (by simp)]
    rw [concatMap_congr fun y hy => h y (by simp [hy])]

/-! ## C3 — the `Confused` AI state -/

/-- C3: the `Confused` transition ignores the game state (hence
visibility), emits no action, decrements `num_turns` while it is still
≥ 1, and reverts to the wrapped `previous` state once it has reached 0;
consequently a `Confused` state with `num_turns = 2` produces no actions
and stays wrapped for exactly 2 ticks, and on the 3rd tick reverts to
its wrapped previous state (also emitting nothing). -/
theorem C3_confused_reverts :
    (∀ (id : Nat) (g : Game) (prev : Ai) (n : Int) (r : Rng),
      confused id g prev n r =
        ([], if n ≥ 1 then Ai.Confused prev (n - 1) else prev, r)) ∧
    (∀ (ia ib ic : Nat) (ga gb gc : Game) (ra rb rc : Rng) (prev : Ai),
      (Ai.Confused prev 2).turn ia ga ra = ([], Ai.Confused prev 1, ra) ∧
      (Ai.Confused prev 1).turn ib gb rb = ([], Ai.Confused prev 0, rb) ∧
      (Ai.Confused prev 0).turn ic gc rc = ([], prev, rc)) := by
  refine ⟨fun id g prev n r => rfl, fun ia ib ic ga gb gc ra rb rc prev => ?_⟩
  refine ⟨?_, ?_, ?_⟩ <;> simp [Ai.turn, confused]

/-! ## C8 — species and item selection thresholds -/

/-- C8: `create_monster` rolls one d100 (a value in `[1, 100]`): below 50
an orc, in `[50, 80)` a troll, otherwise an ogre; `create_item` rolls one
d100: below 50 a healing potion carrying `Item::Heal`, otherwise a
lightning scroll carrying `Item::Lightning`. -/
theorem C8_species_thresholds :
    ∀ (room : Rect) (r : Rng),
      (1 ≤ (d100 (loc_in_room room r).2).1 ∧
        (d100 (loc_in_room room r).2).1 ≤ 100) ∧
      (create_monster room r).1.name =
        (if (d100 (loc_in_room room r).2).1 < 50 then "orc"
         else if (d100 (loc_in_room room r).2).1 < 80 then "troll"
         else "ogre") ∧
      (create_item room r).1.name =
        (if (d100 (loc_in_room room r).2).1 < 50 then "healing potion"
         else "lightning bolt") ∧
      (create_item room r).1.item =
        some (if (d100 (loc_in_room room r).2).1 < 50 then Item.Heal
              else Item.Lightning) := by
  intro room r
  refine ⟨within_bounds 1 100 _ (by norm_num), ?_, ?_, ?_⟩ <;>
    simp only [create_monster, create_item, d100] <;>
    split <;>
    first
      | rfl
      | (split <;>
          simp [Object.orc, Object.troll, Object.ogre, Object.potion,
            Object.scroll, Object.new])

/-! ## C4 — the scene-stack transitions -/

theorem Engine.run_nil {S W : Type} (step : S → W → S × W × Transition S)
    (fuel : Nat) (w : W) : Engine.run step fuel w [] = w := by
  cases fuel <;> rfl

/-- C4: the effect of each transition on the scene stack (top of the
stack = head of the list): `Continue` leaves the stack as it was,
`Exit` removes only the current top, `Next s` pushes `s` on top of the
unchanged current scene — and when `s` later exits, exactly the prior
scene is on top again — `Replace s` never changes the stack depth, and
the run loop stops and returns the world as soon as the stack is empty,
in particular immediately after the last scene exits. -/
theorem C4_scene_stack_transitions :
    (∀ (S : Type) (scene : S) (stack : List S),
      applyTransition scene stack Transition.Continue = scene :: stack) ∧
    (∀ (S : Type) (scene : S) (stack : List S),
      applyTransition scene stack Transition.Exit = stack) ∧
    (∀ (S : Type) (scene n : S) (stack : List S),
      applyTransition scene stack (Transition.Next n) = n :: scene :: stack ∧
      applyTransition n (scene :: stack) Transition.Exit = scene :: stack) ∧
    (∀ (S : Type) (scene n : S) (stack : List S),
      (applyTransition scene stack (Transition.Replace n)).length =
        (scene :: stack).length) ∧
    (∀ (S W : Type) (step : S → W → S × W × Transition S) (fuel : Nat)
      (w : W), Engine.run step fuel w [] = w) ∧
    (∀ (S W : Type) (step : S → W → S × W × Transition S) (fuel : Nat)
      (w : W) (s : S), (step s w).2.2 = Transition.Exit →
        Engine.run step (fuel + 1) w [s] = (step s w).2.1) := by
  refine ⟨fun S scene stack => rfl, fun S scene stack => rfl,
    fun S scene n stack => ⟨rfl, rfl⟩, fun S scene n stack => rfl,
    fun S W step fuel w => Engine.run_nil step fuel w,
    fun S W step fuel w s h => ?_⟩
  show Engine.run step fuel (step s w).2.1
      (applyTransition (step s w).1 [] (step s w).2.2) = (step s w).2.1
  rw [h]
  exact Engine.run_nil step fuel _

/-- Witness for C4: a concrete single-scene engine run whose one step
exits; the engine stops at once and hands back the updated world. -/
theorem C4_scene_stack_transitions_witness :
    Engine.run (fun (s : Nat) (w : Nat) => (s, w + 1, Transition.Exit))
      1 0 [5] = 1 :=
  C4_scene_stack_transitions.2.2.2.2.2 Nat Nat
    (fun s w => (s, w + 1, Transition.Exit)) 0 0 5 rfl

/-! ## C5 — attack damage -/

/-- C5: when both attacker and defender carry `Fighter` components, the
amount subtracted from the defender's health by `attack` is exactly
`max(attackRoll - defenseRoll, 0)` with `attackRoll = dx(power)` rolled
first and `defenseRoll = dx(defense)` rolled second; in particular the
defender's health never increases, and non-positive computed damage
leaves it unchanged. -/
theorem C5_attack_damage :
    ∀ (objects : List Object) (attacker defender : Nat) (r : Rng)
      (oa od : Object) (fa fd : Fighter),
      objects[attacker]? = some oa → oa.fighter = some fa →
      objects[defender]? = some od → od.fighter = some fd →
      ((((attack attacker defender objects r).2.1[defender]?).bind
          (fun o => o.fighter)).map Fighter.health =
        some (fd.health -
          max ((dx fa.power r).1 - (dx fd.defense (dx fa.power r).2).1) 0)) ∧
      (fd.health -
          max ((dx fa.power r).1 - (dx fd.defense (dx fa.power r).2).1) 0
        ≤ fd.health) := by
  intro objects attacker defender r oa od fa fd hA hfa hD hfd
  have gA : getObj objects attacker = oa := getObj_eq hA
  have gD : getObj objects defender = od := getObj_eq hD
  have hlen : defender < objects.length := by
    rcases List.getElem?_eq_some.mp hD with ⟨h, _⟩
    exact h
  refine ⟨?_, by omega⟩
  unfold attack
  simp only [gA, gD, hfa, hfd]
  by_cases hdmg : (dx fa.power r).1 - (dx fd.defense (dx fa.power r).2).1 > 0
  · have hmax :
        max ((dx fa.power r).1 - (dx fd.defense (dx fa.power r).2).1) 0 =
          (dx fa.power r).1 - (dx fd.defense (dx fa.power r).2).1 := by omega
    simp [hdmg, hmax, List.getElem?_set_eq_of_lt _ hlen, Fighter.take_damage,
      gD, hfd]
  · have hmax :
        max ((dx fa.power r).1 - (dx fd.defense (dx fa.power r).2).1) 0 =
          0 := by omega
    simp [hdmg, hmax, hD, hfd]

/-- A concrete player and orc for witnesses. -/
def wPlayer : Object := Object.player ⟨0, 0⟩ "hero"

def wOrc : Object := Object.orc ⟨1, 0⟩

/-- Witness for C5: the player (power 5) attacks the orc (defense 0,
health 10) with a raw draw of 2, so the attack roll is 3 and the orc
ends at health 7. -/
theorem C5_attack_damage_witness :
    (((attack 0 1 [wPlayer, wOrc] [2]).2.1[1]?).bind
        (fun o => o.fighter)).map Fighter.health = some 7 := by
  have h := (C5_attack_damage [wPlayer, wOrc] 0 1 [2] wPlayer wOrc _ _
    rfl rfl rfl rfl).1
  simpa [dx, «within», rngHead, wOrc, Object.orc, Object.new] using h

/-! ## C6 — move resolution -/

theorem move_by_eq (id : Nat) (d : Direction) (map : MapT)
    (objects : List Object) :
    move_by id d map objects =
      if structure_blocks (destination (getObj objects id).loc d) map ||
          object_blocks (destination (getObj objects id).loc d) objects then
        (false, objects)
      else
        (true, objects.set id
          { getObj objects id with
            loc := destination (getObj objects id).loc d }) := by
  unfold move_by
  cases hc : structure_blocks (destination (getObj objects id).loc d) map ||
      object_blocks (destination (getObj objects id).loc d) objects <;>
    simp [hc]

/-- The candidate order written in the spec: the straight move, then the
horizontal component, then the vertical component; the first candidate
whose destination is blocked by neither a tile nor a blocking object is
taken.  This is the spec-side description `move_object` is compared
against. -/
def specFirstFree (id : Nat) (dir : Direction) (map : MapT)
    (objects : List Object) : Option Direction :=
  [dir, ⟨dir.dx, 0⟩, ⟨0, dir.dy⟩].find? fun d =>
    !(structure_blocks (destination (getObj objects id).loc d) map ||
      object_blocks (destination (getObj objects id).loc d) objects)

/-- C6: `move_object` attempts nothing without a `Movement` component
(and draws no die); with one, it draws a single d100 and moves only when
`speed ≥ roll`; on success it takes the first unblocked candidate of
straight/horizontal/vertical (later fallbacks untried), and the
"way is blocked" message appears exactly when the speed check passed and
all three candidates were blocked — blocked meaning a blocking tile or a
blocking object at the destination. -/
theorem C6_move_resolution :
    ∀ (id : Nat) (dir : Direction) (map : MapT) (objects : List Object)
      (r : Rng) (o : Object), objects[id]? = some o →
      (o.movement = none → move_object id dir map objects r = ([], objects, r)) ∧
      (∀ m, o.movement = some m →
        move_object id dir map objects r =
          if m.speed ≥ (d100 r).1 then
            match specFirstFree id dir map objects with
            | some d =>
              ([], objects.set id { o with loc := destination o.loc d },
               (d100 r).2)
            | none =>
              ([("The way is blocked!", Color.white)], objects, (d100 r).2)
          else ([], objects, (d100 r).2)) := by
  intro id dir map objects r o h
  have g : getObj objects id = o := getObj_eq h
  refine ⟨fun hm => by unfold move_object; rw [g, hm], fun m hm => ?_⟩
  unfold move_object
  rw [g, hm]
  rcases hd : d100 r with ⟨roll, r'⟩
  simp only
  by_cases hs : m.speed ≥ roll
  · rw [if_pos hs, if_pos hs]
    by_cases h1 : (structure_blocks (destination o.loc dir) map ||
        object_blocks (destination o.loc dir) objects) = true
    · rw [move_by_eq, g, if_pos h1]
      simp only
      by_cases h2 : (structure_blocks (destination o.loc ⟨dir.dx, 0⟩) map ||
          object_blocks (destination o.loc ⟨dir.dx, 0⟩) objects) = true
      · rw [move_by_eq, g, if_pos h2]
        simp only
        by_cases h3 : (structure_blocks (destination o.loc ⟨0, dir.dy⟩) map ||
            object_blocks (destination o.loc ⟨0, dir.dy⟩) objects) = true
        · rw [move_by_eq, g, if_pos h3]
          simp [specFirstFree, List.find?, g, h1, h2, h3, hm]
        · rw [move_by_eq, g, if_neg h3]
          simp [specFirstFree, List.find?, g, h1, h2, h3, hm]
      · rw [move_by_eq, g, if_neg h2]
        simp [specFirstFree, List.find?, g, h1, h2, hm]
    · rw [move_by_eq, g, if_neg h1]
      simp [specFirstFree, List.find?, g, h1, hm]
  · rw [if_neg hs, if_neg hs]

/-- A concrete open 2×2 map for witnesses. -/
def wMap : MapT := [[Tile.empty, Tile.empty], [Tile.empty, Tile.empty]]

/-- Witness for C6: the player at (0,0) with speed 100 moves straight
east on an open map with a raw draw of 0 (roll 1). -/
theorem C6_move_resolution_witness :
    move_object 0 ⟨1, 0⟩ wMap [wPlayer] [0] =
      ([], [{ wPlayer with loc := ⟨1, 0⟩ }], []) := by
  have h := (C6_move_resolution 0 ⟨1, 0⟩ wMap [wPlayer] [0] wPlayer rfl).2
    ⟨100⟩ rfl
  rw [h]
  rfl

/-! ## C7 — the Heal item -/

/-- C7: using a Heal item on a fighter at full health is `Cancelled` —
health untouched, inventory (and the whole game) unchanged; on a fighter
below max health the fighter is healed by `HEAL_AMOUNT` clamped at
`max_health` and the result is `UsedUp` — the item is removed from the
inventory. -/
theorem C7_heal_item :
    ∀ (g : Game) (id item_id : Nat) (it o : Object) (f : Fighter),
      g.inventory[item_id]? = some it → it.item = some Item.Heal →
      g.objects[id]? = some o → o.fighter = some f →
      ((f.health = f.max_health →
        use_item id item_id g =
          ([("Already at full health!", Color.white)], g)) ∧
       (f.health < f.max_health →
        use_item id item_id g =
          ([("Healed!", Color.white)],
           { g with
             objects := g.objects.set id
               { o with
                 fighter := some
                   { f with
                     health := min (f.health + HEAL_AMOUNT) f.max_health } },
             inventory := g.inventory.eraseIdx item_id }))) := by
  intro g id item_id it o f hit hheal ho hf
  have git : getObj g.inventory item_id = it := getObj_eq hit
  have go : getObj g.objects id = o := getObj_eq ho
  constructor
  · intro hfull
    have e : cast_heal id item_id g =
        (UseResult.Cancelled, [("Already at full health!", Color.white)], g) := by
      unfold cast_heal
      rw [go, hf]
      simp [hfull]
    unfold use_item
    rw [git, hheal]
    simp [e]
  · intro hlt
    have hne : f.health ≠ f.max_health := by omega
    have e : cast_heal id item_id g =
        (UseResult.UsedUp, [("Healed!", Color.white)],
         g.setObj id { o with fighter := some (f.heal HEAL_AMOUNT) }) := by
      unfold cast_heal
      rw [go, hf]
      simp [hne]
    unfold use_item
    rw [git, hheal]
    simp [e, Game.setObj, Fighter.heal]

/-- A concrete game for the C7 witness: the player damaged to 10/30 HP,
one healing potion in the inventory. -/
def cgHeal : Game :=
  { map := [],
    objects := [{ wPlayer with
      fighter := some
        { max_health := 30, health := 10, defense := 2, power := 5,
          on_death := DeathCallback.Player, health_regen := (1 : ℚ) / 2 } }],
    turn := 0, turns := [], messages := [],
    inventory := [Object.potion ⟨0, 0⟩ Item.Heal "healing potion"],
    fovFn := fun _ _ => false, fovSrc := ⟨0, 0⟩,
    map_dimensions := ⟨0, 0⟩, player_turn := [], rng := [] }

/-- Witness for C7: healing the damaged player consumes the potion and
heals 10 → 20. -/
theorem C7_heal_item_witness :
    use_item 0 0 cgHeal =
      ([("Healed!", Color.white)],
       { cgHeal with
         objects := [{ wPlayer with
           fighter := some
             { max_health := 30, health := 20, defense := 2, power := 5,
               on_death := DeathCallback.Player,
               health_regen := (1 : ℚ) / 2 } }],
         inventory := [] }) := by
  have h := (C7_heal_item cgHeal 0 0
    (Object.potion ⟨0, 0⟩ Item.Heal "healing potion") _ _
    rfl rfl rfl rfl).2 (by norm_num)
  rw [h]
  norm_num [cgHeal, HEAL_AMOUNT]

/-! ## C1 — death handling across repeated refreshes

`Game::update_objects` fires the death behavior whenever an object still
has a `Fighter` component with `health ≤ 0`; there is no `alive` guard.
`kill_monster` removes the `Fighter` component, so a monster's death
fires once — but `kill_player` keeps the component, so the player's
death behavior runs again on every later refresh, appending another
"You die!" each time. -/

/-- A game whose only object is the player with HP already at 0 (the
tick after lethal damage), with nothing visible. -/
def deadPlayerGame : Game :=
  { map := [],
    objects := [{ Object.player ⟨0, 0⟩ "hero" with
      fighter := some
        { max_health := 30, health := 0, defense := 2, power := 5,
          on_death := DeathCallback.Player, health_regen := (1 : ℚ) / 2 } }],
    turn := 0, turns := [], messages := [], inventory := [],
    fovFn := fun _ _ => false, fovSrc := ⟨0, 0⟩,
    map_dimensions := ⟨0, 0⟩, player_turn := [], rng := [] }

/-- C1 (counterexample to exactly-once death handling): with the player
at 0 HP, the first refresh appends one "You die!" and clears `alive`,
but the second refresh appends a second "You die!" — the death behavior
re-fires on every tick while HP stays ≤ 0 because the player keeps the
`Fighter` component and no `alive` guard exists. -/
theorem C1_player_death_refires :
    deadPlayerGame.refresh.messages = [("You die!", Color.red)] ∧
    deadPlayerGame.refresh.refresh.messages =
      [("You die!", Color.red), ("You die!", Color.red)] ∧
    deadPlayerGame.refresh.objects.map Object.alive = [false] ∧
    deadPlayerGame.refresh.refresh.objects.map Object.alive = [false] :=
  ⟨rfl, rfl, rfl, rfl⟩

/-! ## Infrastructure: action resolution touches no tick bookkeeping -/

/-- The tick bookkeeping fields (`turns`, `turn`, `player_turn`) that only
`Game::turn` writes. -/
def SameTickMeta (g g' : Game) : Prop :=
  g'.turns = g.turns ∧ g'.turn = g.turn ∧ g'.player_turn = g.player_turn

theorem sameTickMeta_refl (g : Game) : SameTickMeta g g := ⟨rfl, rfl, rfl⟩

theorem sameTickMeta_trans {g1 g2 g3 : Game} (h1 : SameTickMeta g1 g2)
    (h2 : SameTickMeta g2 g3) : SameTickMeta g1 g3 :=
  ⟨h2.1.trans h1.1, h2.2.1.trans h1.2.1, h2.2.2.trans h1.2.2⟩

theorem cast_heal_meta (id item_id : Nat) (g : Game) :
    SameTickMeta g (cast_heal id item_id g).2.2 := by
  unfold cast_heal
  cases hf : (getObj g.objects id).fighter with
  | none => exact ⟨rfl, rfl, rfl⟩
  | some f =>
    simp only
    split <;> exact ⟨rfl, rfl, rfl⟩

theorem cast_lightning_meta (id item_id : Nat) (g : Game) :
    SameTickMeta g (cast_lightning id item_id g).2.2 := by
  unfold cast_lightning
  cases hc : closest_fighter id g.objects LIGHTNING_RANGE with
  | none => exact ⟨rfl, rfl, rfl⟩
  | some t =>
    simp only
    cases hf : (getObj g.objects t).fighter <;> exact ⟨rfl, rfl, rfl⟩

theorem cast_confusion_meta (id item_id : Nat) (g : Game) :
    SameTickMeta g (cast_confusion id item_id g).2.2 := by
  unfold cast_confusion
  cases hc : closest_fighter id g.objects CONFUSE_RANGE with
  | none => exact ⟨rfl, rfl, rfl⟩
  | some t =>
    simp only
    cases hf : (getObj g.objects t).ai <;> exact ⟨rfl, rfl, rfl⟩

theorem use_item_meta (id item_id : Nat) (g : Game) :
    SameTickMeta g (use_item id item_id g).2 := by
  unfold use_item
  cases hi : (getObj g.inventory item_id).item with
  | none => exact ⟨rfl, rfl, rfl⟩
  | some i =>
    have hcast :
        ∀ c : Nat → Nat → Game → UseResult × Messages × Game,
          SameTickMeta g (c id item_id g).2.2 →
          SameTickMeta g
            (match c id item_id g with
             | (UseResult.UsedUp, messages, g') =>
               (messages,
                { g' with inventory := g'.inventory.eraseIdx item_id })
             | (UseResult.Cancelled, messages, g') => (messages, g')).2 := by
      intro c hc
      rcases hres : c id item_id g with ⟨ur, msgs, g'⟩
      rw [hres] at hc
      cases ur <;> exact hc
    cases i
    · exact hcast cast_heal (cast_heal_meta id item_id g)
    · exact hcast cast_lightning (cast_lightning_meta id item_id g)
    · exact hcast cast_confusion (cast_confusion_meta id item_id g)

theorem playAction_meta (g : Game) (a : Action) :
    SameTickMeta g (g.playAction a) := by
  cases a with
  | UseItem id item =>
    have h := use_item_meta id item g
    exact ⟨h.1, h.2.1, h.2.2⟩
  | _ => exact ⟨rfl, rfl, rfl⟩

theorem play_meta (turn : List Action) : ∀ g : Game,
    SameTickMeta g (g.play turn) := by
  induction turn with
  | nil => exact fun g => sameTickMeta_refl g
  | cons a rest ih =>
    intro g
    exact sameTickMeta_trans (playAction_meta g a) (ih (g.playAction a))

theorem refresh_meta (g : Game) : SameTickMeta g g.refresh := ⟨rfl, rfl, rfl⟩

theorem aiOne_meta (g : Game) (id : Nat) : SameTickMeta g (aiOne g id).2 := by
  unfold aiOne
  cases hai : (getObj g.objects id).ai <;> exact ⟨rfl, rfl, rfl⟩

theorem aiLoop_meta : ∀ (ids : List Nat) (g : Game),
    SameTickMeta g (aiLoop g ids).2 := by
  intro ids
  induction ids with
  | nil => exact fun g => sameTickMeta_refl g
  | cons id rest ih =>
    intro g
    exact sameTickMeta_trans (aiOne_meta g id) (ih (aiOne g id).2)

/-! ## Infrastructure: the actions an AI policy emits carry its own id -/

theorem Ai_turn_actor (ai : Ai) (id : Nat) (g : Game) (r : Rng) :
    ∀ act ∈ (ai.turn id g r).1, act.actorId = some id := by
  cases ai with
  | Basic =>
    intro act h
    unfold Ai.turn basic at h
    simp only at h
    split at h
    · split at h
      · rcases hroll : d12 r with ⟨roll, r'⟩
        rw [hroll] at h
        simp only at h
        split at h
        · simp only [List.cons_append, List.nil_append, List.mem_cons,
            List.not_mem_nil, or_false] at h
          rcases h with rfl | rfl <;> rfl
        · simp only [List.nil_append, List.mem_cons, List.not_mem_nil,
            or_false] at h
          subst h
          rfl
      · split at h
        · simp only [List.mem_cons, List.not_mem_nil, or_false] at h
          subst h
          rfl
        · simp at h
    · simp at h
  | Idle =>
    intro act h
    unfold Ai.turn idle at h
    simp only at h
    split at h
    · simp_all
    · rcases hroll : dx 1000 r with ⟨roll, r'⟩
      rw [hroll] at h
      simp only at h
      split at h <;> simp_all [Action.actorId]
  | Confused prev n =>
    intro act h
    unfold Ai.turn confused at h
    simp_all

theorem aiOne_actor (g : Game) (id : Nat) :
    ∀ act ∈ (aiOne g id).1, act.actorId = some id := by
  unfold aiOne
  cases hai : (getObj g.objects id).ai with
  | none => simp
  | some ai =>
    simp only
    exact Ai_turn_actor ai id _ _

/-- The ai loop's batch is the in-order concatenation of per-id action
lists, every action carrying the id it was produced for. -/
theorem aiLoop_concat : ∀ (ids : List Nat) (g : Game), ids.Nodup →
    ∃ f : Nat → List Action,
      (aiLoop g ids).1 = concatMap f ids ∧
      ∀ i ∈ ids, ∀ act ∈ f i, act.actorId = some i := by
  intro ids
  induction ids with
  | nil => exact fun g _ => ⟨fun _ => [], rfl, by simp⟩
  | cons id rest ih =>
    intro g hnd
    obtain ⟨f', hf'1, hf'2⟩ := ih (aiOne g id).2 (List.nodup_cons.mp hnd).2
    refine ⟨fun j => if j = id then (aiOne g id).1 else f' j, ?_, ?_⟩
    · show (aiOne g id).1 ++ (aiLoop (aiOne g id).2 rest).1 = _
      simp only [concatMap, if_pos rfl]
      congr 1
      rw [hf'1]
      exact (concatMap_congr fun j hj => by
        rw [if_neg]
        rintro rfl
        exact (List.nodup_cons.mp hnd).1 hj).symm
    · intro i hi act hact
      have hact2 : act ∈ (if i = id then (aiOne g id).1 else f' i) := hact
      by_cases he : i = id
      · subst he
        rw [if_pos rfl] at hact2
        exact aiOne_actor g i act hact2
      · rw [if_neg he] at hact2
        rcases List.mem_cons.mp hi with rfl | hi'
        · exact absurd rfl he
        · exact hf'2 i hi' act hact2

/-! ## C2 — ordering within a tick -/

/-- The state of `Game::update` after the player's action has been
resolved and the mid-tick refresh has run, and before any AI turn is
computed. -/
def playerPhase (g : Game) (a : Action) : Game :=
  (({ g with player_turn := g.player_turn ++ [a] }).play [a]).refresh

/-- The AI action batch `Game::update` computes — from the
post-player-action, post-refresh state. -/
def aiBatch (g : Game) (a : Action) : List Action :=
  ((playerPhase g a).ai_turns).1

/-- The state after the AI batch has been resolved (and before the
rollover commit). -/
def aiPhase (g : Game) (a : Action) : Game :=
  (((playerPhase g a).ai_turns).2).play (aiBatch g a)

/-- C2: in a turn-consuming tick, `Game::update` (1) resolves the player
action and refreshes, and only then computes the AI batch (the committed
batch is a function of the post-refresh state `playerPhase`); (2) the
whole tick equals: play the AI batch on the post-AI-decision state and
only then roll over — so the (player-turn, ai-turn) pair is appended and
the counter incremented strictly after all AI actions resolved; (3) the
AI batch is the in-order concatenation of per-entity action lists for
indices `1 .. objects.len()` in strictly increasing order, each action
carrying the index of the entity that produced it; and on a
non-turn-consuming action no AI turn runs and nothing is committed. -/
theorem C2_tick_ordering :
    ∀ (g : Game) (a : Action),
      ((g.update a).turn = if a.took_turn then g.turn + 1 else g.turn) ∧
      ((g.update a).turns =
        if a.took_turn then
          g.turns ++ [(g.player_turn ++ [a], aiBatch g a)]
        else g.turns) ∧
      (g.update a =
        if a.took_turn then
          (aiPhase g a).rollover (aiPhase g a).player_turn (aiBatch g a)
        else playerPhase g a) ∧
      (∃ f : Nat → List Action,
        aiBatch g a =
          concatMap f
            (List.range' (PLAYER + 1) ((playerPhase g a).objects.length - 1)) ∧
        ∀ i ∈ List.range' (PLAYER + 1) ((playerPhase g a).objects.length - 1),
          ∀ act ∈ f i, act.actorId = some i) := by
  intro g a
  have hA : (playerPhase g a).turns = g.turns ∧
      (playerPhase g a).turn = g.turn ∧
      (playerPhase g a).player_turn = g.player_turn ++ [a] := by
    have h1 := sameTickMeta_trans
      (play_meta [a] { g with player_turn := g.player_turn ++ [a] })
      (refresh_meta (({ g with player_turn := g.player_turn ++ [a] }).play [a]))
    exact ⟨h1.1, h1.2.1, h1.2.2⟩
  have hB : (aiPhase g a).turns = (playerPhase g a).turns ∧
      (aiPhase g a).turn = (playerPhase g a).turn ∧
      (aiPhase g a).player_turn = (playerPhase g a).player_turn := by
    have h1 := sameTickMeta_trans
      (aiLoop_meta (List.range' (PLAYER + 1)
        ((playerPhase g a).objects.length - 1)) (playerPhase g a))
      (play_meta (aiBatch g a) (((playerPhase g a).ai_turns).2))
    exact ⟨h1.1, h1.2.1, h1.2.2⟩
  have hchar : g.update a =
      if a.took_turn then
        (aiPhase g a).rollover (aiPhase g a).player_turn (aiBatch g a)
      else playerPhase g a := by
    cases ht : a.took_turn <;>
      simp [Game.update, ht, playerPhase, aiBatch, aiPhase]
  refine ⟨?_, ?_, hchar, ?_⟩
  · rw [hchar]
    cases ht : a.took_turn
    · simpa using hA.2.1
    · simp only [if_true]
      simp only [Game.rollover, Game.turnCommit, Game.update_objects,
        Game.update_map, Game.update_fov]
      rw [hB.2.1, hA.2.1]
  · rw [hchar]
    cases ht : a.took_turn
    · simpa using hA.1
    · simp only [if_true]
      simp only [Game.rollover, Game.turnCommit, Game.update_objects,
        Game.update_map, Game.update_fov]
      rw [hB.1, hA.1, hB.2.2, hA.2.2]
  · obtain ⟨f, h1, h2⟩ := aiLoop_concat
      (List.range' (PLAYER + 1) ((playerPhase g a).objects.length - 1))
      (playerPhase g a) (List.nodup_range' ..)
    exact ⟨f, h1, h2⟩

/-- A witness game for C2: the player alone, about to `Wait`. -/
def cgTick : Game :=
  { map := [], objects := [wPlayer], turn := 0, turns := [], messages := [],
    inventory := [], fovFn := fun _ _ => false, fovSrc := ⟨0, 0⟩,
    map_dimensions := ⟨0, 0⟩, player_turn := [], rng := [] }

/-- Witness for C2: a turn-consuming `Wait` advances the counter from 0
to 1. -/
theorem C2_tick_ordering_witness :
    (cgTick.update (Action.Wait 0)).turn = 1 := by
  have h := (C2_tick_ordering cgTick (Action.Wait 0)).1
  simpa [cgTick, Action.took_turn] using h

/-! ## C10 — dead monsters are inert -/

theorem aiOne_objects_ne {g : Game} {id i : Nat} (h : i ≠ id) :
    (aiOne g id).2.objects[i]? = g.objects[i]? := by
  unfold aiOne
  cases hai : (getObj g.objects id).ai with
  | none => rfl
  | some ai =>
    simp only [Game.setObj]
    rw [List.getElem?_set_ne (Ne.symm h), List.getElem?_set_ne (Ne.symm h)]

/-- An entity whose AI component is gone contributes nothing to the ai
loop and is left untouched by it. -/
theorem aiLoop_skips_dead : ∀ (ids : List Nat) (g : Game) (i : Nat)
    (o : Object), g.objects[i]? = some o → o.ai = none →
    (aiLoop g ids).2.objects[i]? = some o ∧
    ∀ act ∈ (aiLoop g ids).1, act.actorId ≠ some i := by
  intro ids
  induction ids with
  | nil =>
    intro g i o h hai
    exact ⟨h, by simp [aiLoop]⟩
  | cons id rest ih =>
    intro g i o h hai
    by_cases he : id = i
    · subst he
      have hskip : aiOne g id = ([], g) := by
        unfold aiOne
        rw [getObj_eq h, hai]
      obtain ⟨ih1, ih2⟩ := ih g id o h hai
      refine ⟨?_, ?_⟩
      · show (aiLoop (aiOne g id).2 rest).2.objects[id]? = some o
        rw [hskip]
        exact ih1
      · show ∀ act ∈ (aiOne g id).1 ++ (aiLoop (aiOne g id).2 rest).1, _
        rw [hskip]
        simpa using ih2
    · have hpres : (aiOne g id).2.objects[i]? = some o := by
        rw [aiOne_objects_ne (fun e => he e.symm)]
        exact h
      obtain ⟨ih1, ih2⟩ := ih (aiOne g id).2 i o hpres hai
      refine ⟨ih1, ?_⟩
      show ∀ act ∈ (aiOne g id).1 ++ (aiLoop (aiOne g id).2 rest).1, _
      intro act hact
      rcases List.mem_append.mp hact with h1 | h2
      · rw [aiOne_actor g id act h1]
        intro hcontra
        exact he (Option.some.inj hcontra)
      · exact ih2 act h2

theorem mem_insertByKey {k : Int × Nat → Int} {x y : Int × Nat} :
    ∀ {l : List (Int × Nat)}, x ∈ insertByKey k y l ↔ x = y ∨ x ∈ l := by
  intro l
  induction l with
  | nil => simp [insertByKey]
  | cons z zs ih =>
    simp only [insertByKey]
    split
    · simp only [List.mem_cons, ih]
      tauto
    · simp only [List.mem_cons]

theorem mem_sortByKey {k : Int × Nat → Int} {x : Int × Nat} :
    ∀ {l : List (Int × Nat)}, x ∈ sortByKey k l ↔ x ∈ l := by
  intro l
  induction l with
  | nil => simp [sortByKey]
  | cons z zs ih => simp [sortByKey, mem_insertByKey, ih]

/-- Every index `fighters_by_distance` returns is another entity that
still has a `Fighter` component. -/
theorem fighters_by_distance_mem {id : Nat} {objects : List Object}
    {range : Int} {t : Nat} (h : t ∈ fighters_by_distance id objects range) :
    t ≠ id ∧ ∃ o, objects[t]? = some o ∧ o.fighter.isSome = true := by
  unfold fighters_by_distance at h
  simp only [List.mem_map] at h
  obtain ⟨p, hp, hpt⟩ := h
  rw [mem_sortByKey] at hp
  simp only [List.mem_filter, List.mem_map] at hp
  obtain ⟨⟨q, hq, hqp⟩, _⟩ := hp
  rcases q with ⟨j, ob⟩
  simp only [List.mem_filter] at hq
  obtain ⟨⟨henum, hne⟩, hfs⟩ := hq
  have hj : j = t := by
    rw [← hqp] at hpt
    exact hpt
  subst hj
  refine ⟨by simpa using hne, ob, ?_, hfs⟩
  exact List.mk_mem_enum_iff_getElem?.mp henum

/-- C10: `kill_monster` leaves the entity with no `Fighter`, no AI, not
blocking (and not alive); consequently the ai-turn loop neither produces
an action for it nor touches it, `closest_fighter` (the
lightning/confusion targeter) never selects an entity without a
`Fighter`, an entity with `blocks = false` never makes `object_blocks`
true, and `cast_confusion` never re-wraps (or touches) a fighterless
entity. -/
theorem C10_dead_monster_inert :
    (∀ o : Object, (kill_monster o).1.fighter = none ∧
      (kill_monster o).1.ai = none ∧ (kill_monster o).1.blocks = false ∧
      (kill_monster o).1.alive = false) ∧
    (∀ (g : Game) (i : Nat) (o : Object), g.objects[i]? = some o →
      o.ai = none →
      (g.ai_turns).2.objects[i]? = some o ∧
      ∀ act ∈ (g.ai_turns).1, act.actorId ≠ some i) ∧
    (∀ (id : Nat) (objects : List Object) (range : Int) (t : Nat),
      closest_fighter id objects range = some t →
      t ≠ id ∧ ∃ o, objects[t]? = some o ∧ o.fighter.isSome = true) ∧
    (∀ (loc : Location) (objects : List Object),
      object_blocks loc objects = true ↔
        ∃ o ∈ objects, o.blocks = true ∧ o.loc = loc) ∧
    (∀ (caster item_id : Nat) (g : Game) (i : Nat) (o : Object),
      g.objects[i]? = some o → o.fighter = none →
      ((cast_confusion caster item_id g).2.2).objects[i]? = some o) := by
  refine ⟨fun o => ⟨rfl, rfl, rfl, rfl⟩, ?_, ?_, ?_, ?_⟩
  · intro g i o h hai
    exact aiLoop_skips_dead _ g i o h hai
  · intro id objects range t h
    unfold closest_fighter at h
    exact fighters_by_distance_mem
      (List.mem_of_mem_getLast? (Option.mem_def.mpr h))
  · intro loc objects
    simp only [object_blocks, List.any_eq_true, List.mem_filter,
      beq_iff_eq]
    constructor
    · rintro ⟨o, ⟨ho, hb⟩, hl⟩
      exact ⟨o, ho, hb, hl⟩
    · rintro ⟨o, ho, hb, hl⟩
      exact ⟨o, ⟨ho, hb⟩, hl⟩
  · intro caster item_id g i o h hf
    unfold cast_confusion
    cases hc : closest_fighter caster g.objects CONFUSE_RANGE with
    | none => exact h
    | some t =>
      have hmem : t ∈ fighters_by_distance caster g.objects CONFUSE_RANGE := by
        unfold closest_fighter at hc
        exact List.mem_of_mem_getLast? (Option.mem_def.mpr hc)
      obtain ⟨_, ob, hob, hobf⟩ := fighters_by_distance_mem hmem
      have hti : t ≠ i := by
        rintro rfl
        rw [h] at hob
        cases hob
        rw [hf] at hobf
        simp at hobf
      simp only
      cases hai : (getObj g.objects t).ai with
      | none => exact h
      | some ai =>
        simp only [Game.setObj]
        rw [List.getElem?_set_ne hti]
        exact h

/-! ## C9 — index 0 is always the player -/

theorem place_monsters_append : ∀ (n : Nat) (room : Rect)
    (objs : List Object) (r : Rng),
    ∃ app, (place_monsters room objs n r).1 = objs ++ app := by
  intro n
  induction n with
  | zero => exact fun room objs r => ⟨[], by simp [place_monsters]⟩
  | succ n ih =>
    intro room objs r
    show ∃ app, (place_monsters room
      (if object_blocks (create_monster room r).1.loc objs then objs
       else objs ++ [(create_monster room r).1]) n
      (create_monster room r).2).1 = objs ++ app
    by_cases hb : object_blocks (create_monster room r).1.loc objs = true
    · rw [if_pos hb]
      exact ih room objs _
    · rw [if_neg hb]
      obtain ⟨app, happ⟩ := ih room (objs ++ [(create_monster room r).1]) _
      exact ⟨(create_monster room r).1 :: app,
        by rw [happ, List.append_assoc, List.singleton_append]⟩

theorem place_items_append : ∀ (n : Nat) (room : Rect)
    (objs : List Object) (r : Rng),
    ∃ app, (place_items room objs n r).1 = objs ++ app := by
  intro n
  induction n with
  | zero => exact fun room objs r => ⟨[], by simp [place_items]⟩
  | succ n ih =>
    intro room objs r
    show ∃ app, (place_items room (objs ++ [(create_item room r).1]) n
      (create_item room r).2).1 = objs ++ app
    obtain ⟨app, happ⟩ := ih room (objs ++ [(create_item room r).1]) _
    exact ⟨(create_item room r).1 :: app,
      by rw [happ, List.append_assoc, List.singleton_append]⟩

theorem place_objects_append (room : Rect) (objs : List Object)
    (mm mi : Int) (r : Rng) :
    ∃ app, (place_objects room objs mm mi r).1 = objs ++ app := by
  unfold place_objects
  obtain ⟨a1, h1⟩ := place_monsters_append («within» 0 mm r).1.toNat room objs
    («within» 0 mm r).2
  obtain ⟨a2, h2⟩ := place_items_append
    («within» 0 mi (place_monsters room objs («within» 0 mm r).1.toNat
      («within» 0 mm r).2).2).1.toNat room
    (place_monsters room objs («within» 0 mm r).1.toNat («within» 0 mm r).2).1
    («within» 0 mi (place_monsters room objs («within» 0 mm r).1.toNat
      («within» 0 mm r).2).2).2
  refine ⟨a1 ++ a2, ?_⟩
  rw [h2, h1, List.append_assoc]

/-- The loop invariant of `make_map`: before the first room is accepted
the object list is untouched; afterwards it is the input list with the
head relocated to the center of the first accepted room, plus appended
monsters/items. -/
def GenInv (o : Object) (rest : List Object) (st : GenState) : Prop :=
  (st.rooms = [] ∧ st.objects = o :: rest) ∨
  (∃ r0 rs app, st.rooms = r0 :: rs ∧
    st.objects =
      ({ o with loc := ⟨(Rect.center r0).1, (Rect.center r0).2⟩ } :: rest) ++ app)

theorem make_map_step_inv (md rd : Dimension) (mm mi : Int) (o : Object)
    (rest : List Object) (st : GenState) (h : GenInv o rest st) :
    GenInv o rest (make_map_step md rd mm mi st) := by
  simp only [GenInv] at h ⊢
  unfold make_map_step
  dsimp only
  generalize «within» rd.w rd.h st.rng = rw0
  generalize «within» rd.w rd.h rw0.2 = rh0
  generalize «within» 0 (md.w - rw0.1 - 1) rh0.2 = rx0
  generalize «within» 0 (md.h - rh0.1 - 1) rx0.2 = ry0
  generalize Rect.new rx0.1 ry0.1 rw0.1 rh0.1 = room
  split
  · exact h
  · split
    · rcases h with ⟨hr, ho⟩ | ⟨r0, rs, app, hr, ho⟩
      · right
        rw [hr, ho]
        refine ⟨room, [], [], by simp, ?_⟩
        simp [PLAYER, getObj]
      · rename_i hEmp
        rw [hr] at hEmp
        simp at hEmp
    · rcases h with ⟨hr, ho⟩ | ⟨r0, rs, app, hr, ho⟩
      · rename_i hEmp
        rw [hr] at hEmp
        simp at hEmp
      · right
        obtain ⟨app2, happ2⟩ := place_objects_append room st.objects mm mi ry0.2
        refine ⟨r0, rs ++ [room], app ++ app2, by rw [hr]; simp, ?_⟩
        rw [happ2, ho, List.append_assoc]

theorem make_map_loop_inv (md rd : Dimension) (mm mi : Int) (o : Object)
    (rest : List Object) : ∀ (n : Nat) (st : GenState), GenInv o rest st →
    GenInv o rest (make_map_loop md rd mm mi n st) := by
  intro n
  induction n with
  | zero => exact fun st h => h
  | succ n ih =>
    intro st h
    exact ih _ (make_map_step_inv md rd mm mi o rest st h)

/-- The identifying features of the player entity that no resolver ever
writes: its display name, the absence of an item component (which keeps
`grab`'s index ≥ 1), and the `Player` death behavior of its fighter
(which keeps `kill_monster`'s rename away from it). -/
def playerLike (nm : String) (o : Object) : Prop :=
  o.name = nm ∧ o.item = none ∧
  ∀ f, o.fighter = some f → f.on_death = DeathCallback.Player

/-- "The object at index 0 is the player". -/
def PlayerAt0 (nm : String) (g : Game) : Prop :=
  ∃ o, g.objects[0]? = some o ∧ playerLike nm o

theorem playerLike_of_fields {nm : String} {o o' : Object}
    (hn : o'.name = o.name) (hi : o'.item = o.item)
    (hf : o'.fighter = o.fighter) (h : playerLike nm o) :
    playerLike nm o' := by
  obtain ⟨h1, h2, h3⟩ := h
  exact ⟨hn.trans h1, hi.trans h2, fun f hf' => h3 f ((hf.symm.trans hf'))⟩

theorem playerAt0_set {nm : String} {objects : List Object} {k : Nat}
    {o' : Object} (h : ∃ o, objects[0]? = some o ∧ playerLike nm o)
    (hkeep : k = 0 → ∀ o, objects[0]? = some o → playerLike nm o →
      playerLike nm o') :
    ∃ o, (objects.set k o')[0]? = some o ∧ playerLike nm o := by
  obtain ⟨o0, h0, hpl⟩ := h
  by_cases hk : k = 0
  · subst hk
    have hlen : 0 < objects.length := by
      rcases List.getElem?_eq_some.mp h0 with ⟨hl, _⟩
      exact hl
    exact ⟨o', by rw [List.getElem?_set_eq_of_lt _ hlen], hkeep rfl o0 h0 hpl⟩
  · exact ⟨o0, by rw [List.getElem?_set_ne hk]; exact h0, hpl⟩

/-- The objects `move_object` produces: either unchanged, or a single
in-place relocation of the mover. -/
theorem move_object_objects (id : Nat) (dir : Direction) (map : MapT)
    (objects : List Object) (r : Rng) :
    (move_object id dir map objects r).2.1 = objects ∨
    ∃ d, (move_object id dir map objects r).2.1 =
      objects.set id
        { getObj objects id with
          loc := destination (getObj objects id).loc d } := by
  unfold move_object
  cases hm : (getObj objects id).movement with
  | none => left; rfl
  | some m =>
    rcases hd : d100 r with ⟨roll, r'⟩
    simp only
    by_cases hs : m.speed ≥ roll
    · rw [if_pos hs, move_by_eq]
      by_cases h1 : (structure_blocks (destination (getObj objects id).loc dir)
          map || object_blocks (destination (getObj objects id).loc dir)
          objects) = true
      · rw [if_pos h1]
        simp only
        rw [move_by_eq]
        by_cases h2 : (structure_blocks
            (destination (getObj objects id).loc ⟨dir.dx, 0⟩) map ||
            object_blocks (destination (getObj objects id).loc ⟨dir.dx, 0⟩)
            objects) = true
        · rw [if_pos h2]
          simp only
          rw [move_by_eq]
          by_cases h3 : (structure_blocks
              (destination (getObj objects id).loc ⟨0, dir.dy⟩) map ||
              object_blocks (destination (getObj objects id).loc ⟨0, dir.dy⟩)
              objects) = true
          · rw [if_pos h3]
            left; rfl
          · rw [if_neg h3]
            right; exact ⟨⟨0, dir.dy⟩, rfl⟩
        · rw [if_neg h2]
          right; exact ⟨⟨dir.dx, 0⟩, rfl⟩
      · rw [if_neg h1]
        right; exact ⟨dir, rfl⟩
    · rw [if_neg hs]
      left; rfl

/-- The objects `attack` produces: either unchanged, or a single
in-place fighter update of the defender. -/
theorem attack_objects (attacker defender : Nat) (objects : List Object)
    (r : Rng) :
    (attack attacker defender objects r).2.1 = objects ∨
    ∃ fd dmg, (getObj objects defender).fighter = some fd ∧
      (attack attacker defender objects r).2.1 =
        objects.set defender
          { getObj objects defender with
            fighter := some (fd.take_damage dmg) } := by
  unfold attack
  cases hfd : (getObj objects defender).fighter with
  | none => exact Or.inl (by simp [hfd])
  | some fd =>
    simp only [hfd]
    split
    · right; exact ⟨fd, _, rfl, rfl⟩
    · left; rfl

theorem swapRemove_getElem?_zero {l : List Object} {j : Nat} (h1 : 1 ≤ j)
    (h2 : j < l.length) : (swapRemove l j)[0]? = l[0]? := by
  unfold swapRemove
  cases hl : l.getLast? with
  | none => rfl
  | some last =>
    rw [List.getElem?_dropLast, List.length_set, if_pos (by omega),
      List.getElem?_set_ne (by omega)]

theorem cast_heal_playerAt0 {nm : String} (id item_id : Nat) (g : Game)
    (h : PlayerAt0 nm g) : PlayerAt0 nm (cast_heal id item_id g).2.2 := by
  unfold cast_heal
  cases hf : (getObj g.objects id).fighter with
  | none => exact h
  | some f =>
    simp only
    split
    · exact h
    · refine playerAt0_set h ?_
      rintro rfl o ho hpl
      have hgo : getObj g.objects 0 = o := getObj_eq ho
      rw [hgo] at hf
      rw [hgo]
      refine ⟨hpl.1, hpl.2.1, ?_⟩
      intro f' hf'
      have hfe : f' = f.heal HEAL_AMOUNT := (Option.some.inj hf').symm
      subst hfe
      have := hpl.2.2 f hf
      simpa [Fighter.heal] using this

theorem cast_lightning_playerAt0 {nm : String} (id item_id : Nat) (g : Game)
    (h : PlayerAt0 nm g) : PlayerAt0 nm (cast_lightning id item_id g).2.2 := by
  unfold cast_lightning
  cases hc : closest_fighter id g.objects LIGHTNING_RANGE with
  | none => exact h
  | some t =>
    simp only
    cases hf : (getObj g.objects t).fighter with
    | none => exact h
    | some f =>
      refine playerAt0_set h ?_
      rintro rfl o ho hpl
      have hgo : getObj g.objects 0 = o := getObj_eq ho
      rw [hgo] at hf
      rw [hgo]
      refine ⟨hpl.1, hpl.2.1, ?_⟩
      intro f' hf'
      have hfe : f' = f.take_damage LIGHTNING_DAMAGE :=
        (Option.some.inj hf').symm
      subst hfe
      have := hpl.2.2 f hf
      simpa [Fighter.take_damage] using this

theorem cast_confusion_playerAt0 {nm : String} (id item_id : Nat) (g : Game)
    (h : PlayerAt0 nm g) : PlayerAt0 nm (cast_confusion id item_id g).2.2 := by
  unfold cast_confusion
  cases hc : closest_fighter id g.objects CONFUSE_RANGE with
  | none => exact h
  | some t =>
    simp only
    cases hai : (getObj g.objects t).ai with
    | none => exact h
    | some ai =>
      refine playerAt0_set h ?_
      rintro rfl o ho hpl
      have hgo : getObj g.objects 0 = o := getObj_eq ho
      rw [hgo]
      exact playerLike_of_fields rfl rfl rfl hpl

theorem use_item_playerAt0 {nm : String} (id item_id : Nat) (g : Game)
    (h : PlayerAt0 nm g) : PlayerAt0 nm (use_item id item_id g).2 := by
  unfold use_item
  cases hi : (getObj g.inventory item_id).item with
  | none => exact h
  | some i =>
    have hcast :
        ∀ c : Nat → Nat → Game → UseResult × Messages × Game,
          PlayerAt0 nm (c id item_id g).2.2 →
          PlayerAt0 nm
            (match c id item_id g with
             | (UseResult.UsedUp, messages, g') =>
               (messages,
                { g' with inventory := g'.inventory.eraseIdx item_id })
             | (UseResult.Cancelled, messages, g') => (messages, g')).2 := by
      intro c hc
      rcases hres : c id item_id g with ⟨ur, msgs, g'⟩
      rw [hres] at hc
      cases ur <;> exact hc
    cases i
    · exact hcast cast_heal (cast_heal_playerAt0 id item_id g h)
    · exact hcast cast_lightning (cast_lightning_playerAt0 id item_id g h)
    · exact hcast cast_confusion (cast_confusion_playerAt0 id item_id g h)

theorem playAction_playerAt0 {nm : String} (g : Game) (a : Action)
    (h : PlayerAt0 nm g)
    (hpick : ∀ id j, a = Action.PickUp id j →
      1 ≤ j ∧ j < g.objects.length) :
    PlayerAt0 nm (g.playAction a) := by
  obtain ⟨o0, h0, hpl⟩ := h
  cases a with
  | Move id dir =>
    rcases move_object_objects id dir g.map g.objects g.rng with he | ⟨d, he⟩
    · refine ⟨o0, ?_, hpl⟩
      show (move_object id dir g.map g.objects g.rng).2.1[0]? = some o0
      rw [he]
      exact h0
    · show ∃ o, (move_object id dir g.map g.objects g.rng).2.1[0]? =
        some o ∧ playerLike nm o
      rw [he]
      refine playerAt0_set ⟨o0, h0, hpl⟩ ?_
      rintro rfl o ho hplo
      rw [getObj_eq ho]
      exact playerLike_of_fields rfl rfl rfl hplo
  | Attack id target =>
    rcases attack_objects id target g.objects g.rng with he | ⟨fd, dmg, hfd, he⟩
    · refine ⟨o0, ?_, hpl⟩
      show (attack id target g.objects g.rng).2.1[0]? = some o0
      rw [he]
      exact h0
    · show ∃ o, (attack id target g.objects g.rng).2.1[0]? =
        some o ∧ playerLike nm o
      rw [he]
      refine playerAt0_set ⟨o0, h0, hpl⟩ ?_
      rintro rfl o ho hplo
      have hgo : getObj g.objects 0 = o := getObj_eq ho
      rw [hgo] at hfd
      rw [hgo]
      refine ⟨hplo.1, hplo.2.1, ?_⟩
      intro f' hf'
      have hfe : f' = fd.take_damage dmg := (Option.some.inj hf').symm
      subst hfe
      have := hplo.2.2 fd hfd
      simpa [Fighter.take_damage] using this
  | PickUp id j =>
    obtain ⟨hj1, hj2⟩ := hpick id j rfl
    show ∃ o, (pickup_item id j g.objects g.inventory).2.1[0]? =
      some o ∧ playerLike nm o
    unfold pickup_item
    split
    · exact ⟨o0, h0, hpl⟩
    · simp only
      exact ⟨o0, by rw [swapRemove_getElem?_zero hj1 hj2]; exact h0, hpl⟩
  | UseItem id item => exact use_item_playerAt0 id item g ⟨o0, h0, hpl⟩
  | Bark id => exact ⟨o0, h0, hpl⟩
  | Mumble id => exact ⟨o0, h0, hpl⟩
  | Wait id => exact ⟨o0, h0, hpl⟩
  | Nothing => exact ⟨o0, h0, hpl⟩

theorem visibility_step_playerLike {nm : String} {v : Bool} {o : Object}
    (h : playerLike nm o) : playerLike nm (visibility_step v o).1 := by
  unfold visibility_step
  split
  · split
    · exact playerLike_of_fields rfl rfl rfl h
    · exact playerLike_of_fields rfl rfl rfl h
  · exact playerLike_of_fields rfl rfl rfl h

theorem death_step_playerLike {nm : String} {o : Object}
    (h : playerLike nm o) : playerLike nm (death_step o).1 := by
  unfold death_step
  cases hf : o.fighter with
  | none => exact h
  | some f =>
    simp only
    split
    · have hpd : f.on_death = DeathCallback.Player := h.2.2 f hf
      rw [hpd]
      show playerLike nm (kill_player o).1
      exact playerLike_of_fields rfl rfl rfl h
    · exact h

theorem regen_step_playerLike {nm : String} {ft : Bool} {o : Object}
    {r : Rng} (h : playerLike nm o) : playerLike nm (regen_step ft o r).1 := by
  unfold regen_step
  split
  · unfold regenerate
    cases hf : o.fighter with
    | none => exact h
    | some f =>
      simp only
      refine ⟨h.1, h.2.1, ?_⟩
      intro f' hf'
      have hfe : f' = f.heal (regen_amount f r).1 :=
        (Option.some.inj hf').symm
      subst hfe
      have := h.2.2 f hf
      simpa [Fighter.heal] using this
  · exact h

theorem process_object_playerLike {nm : String} (v ft : Bool) (o : Object)
    (r : Rng) (h : playerLike nm o) :
    playerLike nm (process_object v ft o r).1 := by
  show playerLike nm
    (regen_step ft (death_step (visibility_step v o).1).1 r).1
  exact regen_step_playerLike
    (death_step_playerLike (visibility_step_playerLike h))

theorem update_objects_playerAt0 {nm : String} (g : Game) (ft : Bool)
    (h : PlayerAt0 nm g) : PlayerAt0 nm (g.update_objects ft) := by
  obtain ⟨o0, h0, hpl⟩ := h
  obtain ⟨rest, hrest⟩ : ∃ rest, g.objects = o0 :: rest := by
    cases hobj : g.objects with
    | nil => rw [hobj] at h0; simp at h0
    | cons x xs =>
      rw [hobj] at h0
      simp only [List.getElem?_cons_zero, Option.some.injEq] at h0
      exact ⟨xs, by rw [h0]⟩
  show ∃ o,
    (processObjects (fun loc => g.visible loc) ft g.objects g.rng).1[0]? =
      some o ∧ playerLike nm o
  rw [hrest]
  rcases hp : process_object (g.visible o0.loc) ft o0 g.rng with ⟨o1, msgs1, r1⟩
  rcases hq : processObjects (fun loc => g.visible loc) ft rest r1
    with ⟨os2, msgs2, r2⟩
  simp only [processObjects, hp, hq]
  refine ⟨o1, by simp, ?_⟩
  have : (process_object (g.visible o0.loc) ft o0 g.rng).1 = o1 := by
    rw [hp]
  rw [← this]
  exact process_object_playerLike _ _ _ _ hpl

theorem refresh_playerAt0 {nm : String} (g : Game) (h : PlayerAt0 nm g) :
    PlayerAt0 nm g.refresh :=
  update_objects_playerAt0 (g.update_fov.update_map) false h

/-- C9: the entity at index 0 is always the player.  (a) `make_map`
leaves the object list untouched when no room is accepted, and otherwise
only relocates the head entity to the center of the first accepted room
and appends monsters/items after it; (b) `grab` — the only producer of
`PickUp` actions — returns an item index that is ≥ 1 (the player at
index 0 has no item component) and in bounds; (c) `pickup_item`'s
swap-remove of such an index never relocates the entity at index 0;
(d) every action resolution (`Game::play` arm) preserves "the object at
index 0 is the player" (its name, its missing item component, and the
`Player` death behavior of its fighter), and (e) so does the per-tick
refresh. -/
theorem C9_player_is_index_zero :
    (∀ (o : Object) (rest : List Object) (md rd : Dimension)
      (mr mm mi : Int) (r : Rng),
      ((make_map_full (o :: rest) md rd mr mm mi r).rooms = [] →
        (make_map_full (o :: rest) md rd mr mm mi r).objects = o :: rest) ∧
      (∀ r0 rs,
        (make_map_full (o :: rest) md rd mr mm mi r).rooms = r0 :: rs →
        ∃ app, (make_map_full (o :: rest) md rd mr mm mi r).objects =
          ({ o with loc := ⟨(Rect.center r0).1, (Rect.center r0).2⟩ } :: rest)
            ++ app)) ∧
    (∀ (objects : List Object) (id : Nat) (o0 : Object) (a : Action),
      objects[0]? = some o0 → o0.item = none →
      (grab id objects).1 = some a →
      ∃ j, a = Action.PickUp id j ∧ 1 ≤ j ∧ j < objects.length) ∧
    (∀ (actor item_id : Nat) (objects inventory : List Object),
      1 ≤ item_id → item_id < objects.length →
      ((pickup_item actor item_id objects inventory).2.1)[0]? =
        objects[0]?) ∧
    (∀ (g : Game) (a : Action) (nm : String), PlayerAt0 nm g →
      (∀ id j, a = Action.PickUp id j → 1 ≤ j ∧ j < g.objects.length) →
      PlayerAt0 nm (g.playAction a)) ∧
    (∀ (g : Game) (nm : String), PlayerAt0 nm g → PlayerAt0 nm g.refresh) := by
  refine ⟨?_, ?_, ?_, ?_, fun g nm h => refresh_playerAt0 g h⟩
  · intro o rest md rd mr mm mi r
    have hinv : GenInv o rest (make_map_full (o :: rest) md rd mr mm mi r) :=
      make_map_loop_inv md rd mm mi o rest mr.toNat
        { map := List.replicate md.w.toNat
            (List.replicate md.h.toNat Tile.wall),
          rooms := [], objects := o :: rest, rng := r }
        (Or.inl ⟨rfl, rfl⟩)
    constructor
    · intro hemp
      rcases hinv with ⟨hr, ho⟩ | ⟨r0, rs, app, hr, ho⟩
      · exact ho
      · rw [hemp] at hr
        cases hr
    · intro r0 rs hcons
      rcases hinv with ⟨hr, ho⟩ | ⟨r0', rs', app, hr, ho⟩
      · rw [hcons] at hr
        cases hr
      · rw [hcons] at hr
        obtain ⟨he, -⟩ := List.cons.inj hr
        exact ⟨app, by rw [ho, he]⟩
  · intro objects id o0 a h0 hitem hg
    unfold grab at hg
    cases hidx : objects.findIdx? (fun o =>
        (o.loc == (getObj objects id).loc) && o.item.isSome) with
    | none => rw [hidx] at hg; cases hg
    | some j =>
      rw [hidx] at hg
      have ha : a = Action.PickUp id j := (Option.some.inj hg).symm
      obtain ⟨hlt, hp, -⟩ := List.findIdx?_eq_some_iff_getElem.mp hidx
      refine ⟨j, ha, ?_, hlt⟩
      by_contra hj
      have hj0 : j = 0 := by omega
      subst hj0
      have he : objects[0] = o0 := by
        rcases List.getElem?_eq_some.mp h0 with ⟨h', he'⟩
        exact he'
      rw [he, hitem] at hp
      simp at hp
  · intro actor item_id objects inventory h1 h2
    unfold pickup_item
    split
    · rfl
    · simp only
      exact swapRemove_getElem?_zero h1 h2
  · intro g a nm h hpick
    exact playAction_playerAt0 g a h hpick

/-- A concrete potion entity for the C9 witness. -/
def wPotion : Object := Object.potion ⟨0, 0⟩ Item.Heal "healing potion"

/-- Witness for C9: picking up the item at index 1 of a two-entity world
leaves the player at index 0 exactly where it was. -/
theorem C9_player_is_index_zero_witness :
    ((pickup_item 0 1 [wPlayer, wPotion] []).2.1)[0]? =
      [wPlayer, wPotion][0]? :=
  C9_player_is_index_zero.2.2.1 0 1 [wPlayer, wPotion] []
    (by norm_num) (by norm_num)

/-- A dead monster (the result of `kill_monster` on an orc), for the C10
witness. -/
def wDeadMonster : Object := (kill_monster (Object.orc ⟨1, 0⟩)).1

/-- A two-entity game with the player and a dead monster, for the C10
witness. -/
def cgDead : Game :=
  { map := [], objects := [wPlayer, wDeadMonster], turn := 0, turns := [],
    messages := [], inventory := [], fovFn := fun _ _ => true,
    fovSrc := ⟨0, 0⟩, map_dimensions := ⟨0, 0⟩, player_turn := [],
    rng := [] }

/-- Witness for C10: the ai-turn loop leaves the dead monster at index 1
untouched (in particular it produces no replacement AI state for it). -/
theorem C10_dead_monster_inert_witness :
    (cgDead.ai_turns).2.objects[1]? = some wDeadMonster :=
  (C10_dead_monster_inert.2.1 cgDead 1 wDeadMonster rfl rfl).1

end Rustlike
